import Mathlib

/-!
Verification development for the event-ingestion and deduplication service
(`Final_deduplicator`). The Python sources under `my_venv/src` are shallowly
embedded: pure functions become Lean functions over an inductive model `PyVal`
of Python/JSON values, stateful Redis/DB code becomes explicit state passing,
and machine arithmetic is modelled with `Nat`/`Int` (with explicit `% 2^64`
where 64-bit overflow matters, as in the Keccak permutation).

Standard-library and external-system primitives used by the code
(`hashlib.sha3_256`, `datetime`, `json.loads`, Redis `SET NX EX`) are
implemented/modelled here from their documented behaviour; all repository
logic is translated from the source files.
-/

/-- Decidable equality for `Except`, needed to evaluate results of fallible
modelled operations. -/
instance {ε α} [DecidableEq ε] [DecidableEq α] : DecidableEq (Except ε α) := fun a b =>
  match a, b with
  | .ok x, .ok y => if h : x = y then .isTrue (by rw [h]) else .isFalse (by simp [h])
  | .error x, .error y => if h : x = y then .isTrue (by rw [h]) else .isFalse (by simp [h])
  | .ok _, .error _ => .isFalse (by simp)
  | .error _, .ok _ => .isFalse (by simp)

/-! ### SHA3-256 (model of `hashlib.sha3_256`)

An executable Keccak-f[1600] implementation over `Nat`, with lanes reduced
modulo `2^64`. `sha3_256` maps a byte list (each byte `< 256`) to the 32-byte
digest. -/

/-- 2^64, the lane modulus of Keccak-f[1600]. -/
def U64 : Nat := 18446744073709551616

/-- Rotate a 64-bit lane left by `n` bits. -/
def rotl64 (x n : Nat) : Nat :=
  ((x <<< n) % U64) ||| (x >>> (64 - n))

/-- The byte-wide LFSR of FIPS 202 (polynomial x^8 + x^6 + x^5 + x^4 + 1)
that generates the round-constant bits, seeded with 1. -/
def keccakLfsr : Nat → Nat
  | 0 => 1
  | t+1 =>
    let r := keccakLfsr t
    ((r <<< 1).xor ((r >>> 7) * 0x71)) % 256

/-- Round constant number `i`: bit `rc(7i + j)` of the LFSR stream lands at
bit position `2^j - 1` of the lane. -/
def keccakRoundConstant (i : Nat) : Nat :=
  (List.range 7).foldl (fun acc j => acc + keccakLfsr (7 * i + j) % 2 * 2 ^ (2 ^ j - 1)) 0

/-- The 24 Keccak round constants. -/
def keccakRC : List Nat := (List.range 24).map keccakRoundConstant

/-- The ρ rotation schedule generated by the FIPS 202 recurrence: starting
from lane (1, 0), step `t` assigns rotation `(t+1)(t+2)/2 mod 64` and moves
to `(y, 2x + 3y mod 5)`; lane (0, 0) keeps rotation 0. -/
def keccakRhoPairs : List (Nat × Nat) :=
  ((List.range 24).foldl (fun acc t =>
      let x := acc.1.1
      let y := acc.1.2
      ((y, (2 * x + 3 * y) % 5), acc.2 ++ [(x + 5 * y, (t + 1) * (t + 2) / 2 % 64)]))
    ((1, 0), [])).2

/-- Rotation offsets indexed by lane `x + 5*y`. -/
def keccakRho : List Nat :=
  (List.range 25).map (fun i =>
    (((keccakRhoPairs.find? (fun p => p.1 = i)).map Prod.snd).getD 0))

/-- Lane `(x, y)` of a 25-lane state. -/
def lane (st : List Nat) (x y : Nat) : Nat := st.getD (x + 5 * y) 0

/-- One Keccak round: θ, ρ, π, χ and ι with round constant `rc`. -/
def keccakRound (st : List Nat) (rc : Nat) : List Nat :=
  let c := (List.range 5).map (fun x =>
    (lane st x 0).xor ((lane st x 1).xor ((lane st x 2).xor ((lane st x 3).xor (lane st x 4)))))
  let d := (List.range 5).map (fun x =>
    (c.getD ((x + 4) % 5) 0).xor (rotl64 (c.getD ((x + 1) % 5) 0) 1))
  let a1 := (List.range 25).map (fun i => (st.getD i 0).xor (d.getD (i % 5) 0))
  let b := (List.range 25).map (fun i =>
    let x := i % 5
    let y := i / 5
    let sx := (x + 3 * y) % 5
    let sy := x
    rotl64 (a1.getD (sx + 5 * sy) 0) (keccakRho.getD (sx + 5 * sy) 0))
  let a2 := (List.range 25).map (fun i =>
    let x := i % 5
    let y := i / 5
    (b.getD i 0).xor ((Nat.xor (b.getD ((x + 1) % 5 + 5 * y) 0) (U64 - 1)).land
      (b.getD ((x + 2) % 5 + 5 * y) 0)))
  match a2 with
  | a0 :: rest => (a0.xor rc) :: rest
  | [] => []

/-- The full Keccak-f[1600] permutation (24 rounds). -/
def keccakF (st : List Nat) : List Nat :=
  keccakRC.foldl keccakRound st

/-- Load up to eight bytes as a little-endian 64-bit lane. -/
def loadLane (bytes : List Nat) : Nat :=
  bytes.foldr (fun b acc => acc * 256 + b) 0

/-- Absorb one 136-byte (rate) block into the state and permute. -/
def absorbBlock (st : List Nat) (block : List Nat) : List Nat :=
  let lanes := (List.range 17).map (fun i => loadLane ((block.drop (8 * i)).take 8))
  keccakF ((List.range 25).map (fun i =>
    if i < 17 then (st.getD i 0).xor (lanes.getD i 0) else st.getD i 0))

/-- SHA3 padding (domain separator `0x06`, final bit `0x80`) to a multiple of
the 136-byte rate. -/
def sha3Pad (msg : List Nat) : List Nat :=
  let q := 136 - msg.length % 136
  if q = 1 then msg ++ [0x86]
  else msg ++ [0x06] ++ List.replicate (q - 2) 0 ++ [0x80]

/-- Absorb `n` consecutive rate blocks of the padded message. -/
def absorbAll : Nat → List Nat → List Nat → List Nat
  | 0, st, _ => st
  | n+1, st, padded => absorbAll n (absorbBlock st (padded.take 136)) (padded.drop 136)

/-- SHA3-256 of a byte list: the first 32 bytes squeezed from the final state.
Model of Python's `hashlib.sha3_256(...).digest()`. -/
def sha3_256 (msg : List Nat) : List Nat :=
  let padded := sha3Pad msg
  let final := absorbAll (padded.length / 136) (List.replicate 25 0) padded
  (List.range 32).map (fun i => ((final.getD (i / 8) 0) >>> (8 * (i % 8))) % 256)

/-- Lowercase hexadecimal digit for a value `< 16`. -/
def hexChar (n : Nat) : Char := "0123456789abcdef".toList.getD n '0'

/-- Render a byte list as lowercase hexadecimal, two digits per byte.
Model of Python's `.hexdigest()` applied to the digest bytes. -/
def bytesToHex (bs : List Nat) : String :=
  ⟨bs.flatMap (fun b => [hexChar (b / 16), hexChar (b % 16)])⟩

/-- The character set of lowercase hexadecimal digits. -/
def isLowerHexChar (c : Char) : Prop := c ∈ "0123456789abcdef".toList

instance (c : Char) : Decidable (isLowerHexChar c) := by
  unfold isLowerHexChar
  infer_instance

theorem sha3_256_length (msg : List Nat) : (sha3_256 msg).length = 32 := by
  simp [sha3_256]

theorem sha3_256_bytes_lt (msg : List Nat) : ∀ b ∈ sha3_256 msg, b < 256 := by
  intro b hb
  simp only [sha3_256, List.mem_map, List.mem_range] at hb
  obtain ⟨i, _, rfl⟩ := hb
  exact Nat.mod_lt _ (by norm_num)

theorem hexChar_mem (n : Nat) (h : n < 16) : isLowerHexChar (hexChar n) := by
  interval_cases n <;> decide

theorem bytesToHex_length (bs : List Nat) : (bytesToHex bs).length = 2 * bs.length := by
  induction bs with
  | nil => rfl
  | cons b tl ih =>
    simp only [bytesToHex, String.length] at ih ⊢
    simp [List.flatMap_cons, ih]
    omega

theorem bytesToHex_chars (bs : List Nat) (h : ∀ b ∈ bs, b < 256) :
    ∀ c ∈ (bytesToHex bs).toList, isLowerHexChar c := by
  intro c hc
  simp only [bytesToHex, String.toList, String.mk] at hc
  simp only [List.mem_flatMap] at hc
  obtain ⟨b, hb, hcb⟩ := hc
  have hblt := h b hb
  simp only [List.mem_cons, List.mem_singleton] at hcb
  rcases hcb with rfl | rfl | hfalse
  · exact hexChar_mem _ (Nat.div_lt_of_lt_mul (by omega))
  · exact hexChar_mem _ (Nat.mod_lt _ (by norm_num))
  · cases hfalse

/-! ### UTF-8 encoding and decoding

Model of Python's UTF-8 codec: `utf8Encode` for serialisation to hash input
bytes, `utf8Decode` for `bytes.decode("utf-8", errors="replace")`. -/

/-- Standard UTF-8 encoding of one scalar value. -/
def utf8EncodeChar (c : Char) : List Nat :=
  let n := c.toNat
  if n < 0x80 then [n]
  else if n < 0x800 then [0xC0 ||| (n >>> 6), 0x80 ||| (n &&& 0x3F)]
  else if n < 0x10000 then
    [0xE0 ||| (n >>> 12), 0x80 ||| ((n >>> 6) &&& 0x3F), 0x80 ||| (n &&& 0x3F)]
  else
    [0xF0 ||| (n >>> 18), 0x80 ||| ((n >>> 12) &&& 0x3F),
     0x80 ||| ((n >>> 6) &&& 0x3F), 0x80 ||| (n &&& 0x3F)]

/-- UTF-8 encoding of a string. -/
def utf8Encode (s : String) : List Nat :=
  s.toList.flatMap utf8EncodeChar

/-- Char from a scalar value, falling back to the replacement character
U+FFFD on surrogate/overflow values. -/
def charOfNat (n : Nat) : Char :=
  if n.isValidChar then Char.ofNat n else '\uFFFD'

/-- Check for a UTF-8 continuation byte. -/
def isCont (b : Nat) : Bool := 0x80 ≤ b && b < 0xC0

/-- Decode a UTF-8 byte list to characters, replacing invalid sequences with
U+FFFD (fuel-driven; one byte of fuel per input byte suffices since every
step consumes at least one byte). Model of
`bytes.decode("utf-8", errors="replace")`. -/
def utf8DecodeCharsF : Nat → List Nat → List Char
  | 0, _ => []
  | _, [] => []
  | fuel+1, b :: rest =>
    if b < 0x80 then charOfNat b :: utf8DecodeCharsF fuel rest
    else if 0xC2 ≤ b && b < 0xE0 then
      match rest with
      | b2 :: rest2 =>
        if isCont b2 then
          charOfNat (((b - 0xC0) <<< 6) + (b2 - 0x80)) :: utf8DecodeCharsF fuel rest2
        else '\uFFFD' :: utf8DecodeCharsF fuel rest
      | [] => ['\uFFFD']
    else if 0xE0 ≤ b && b < 0xF0 then
      match rest with
      | b2 :: b3 :: rest3 =>
        if isCont b2 && isCont b3 then
          charOfNat (((b - 0xE0) <<< 12) + ((b2 - 0x80) <<< 6) + (b3 - 0x80)) ::
            utf8DecodeCharsF fuel rest3
        else '\uFFFD' :: utf8DecodeCharsF fuel rest
      | _ => '\uFFFD' :: utf8DecodeCharsF fuel rest
    else if 0xF0 ≤ b && b < 0xF5 then
      match rest with
      | b2 :: b3 :: b4 :: rest4 =>
        if isCont b2 && isCont b3 && isCont b4 then
          charOfNat (((b - 0xF0) <<< 18) + ((b2 - 0x80) <<< 12) + ((b3 - 0x80) <<< 6) +
            (b4 - 0x80)) :: utf8DecodeCharsF fuel rest4
        else '\uFFFD' :: utf8DecodeCharsF fuel rest
      | _ => '\uFFFD' :: utf8DecodeCharsF fuel rest
    else '\uFFFD' :: utf8DecodeCharsF fuel rest

/-- String from UTF-8 bytes with replacement on errors. -/
def utf8Decode (bs : List Nat) : String := ⟨utf8DecodeCharsF bs.length bs⟩

/-! ### Points in time (model of `datetime.datetime`)

A datetime is stored as wall-clock microseconds since 1970-01-01T00:00:00
plus an optional UTC-offset (minutes), mirroring Python's naive/aware
datetimes. The process-local timezone is taken to be UTC, so
`datetime.fromtimestamp` yields the wall clock equal to the instant. -/

/-- A Python `datetime`: wall-clock microseconds since the epoch and an
optional timezone offset in minutes. -/
structure PyDateTime where
  micros : Int
  tzmin : Option Int
  deriving DecidableEq, Repr

/-- Days from civil date (proleptic Gregorian), Hinnant's algorithm with
floor division. -/
def daysFromCivil (y m d : Int) : Int :=
  let y2 := if m ≤ 2 then y - 1 else y
  let era := Int.fdiv y2 400
  let yoe := y2 - era * 400
  let mp := Int.fmod (m + 9) 12
  let doy := Int.fdiv (153 * mp + 2) 5 + d - 1
  let doe := yoe * 365 + Int.fdiv yoe 4 - Int.fdiv yoe 100 + doy
  era * 146097 + doe - 719468

/-- Civil date from days since the epoch (inverse of `daysFromCivil`). -/
def civilFromDays (z0 : Int) : Int × Int × Int :=
  let z := z0 + 719468
  let era := Int.fdiv z 146097
  let doe := z - era * 146097
  let yoe := Int.fdiv (doe - Int.fdiv doe 1460 + Int.fdiv doe 36524 - Int.fdiv doe 146096) 365
  let y := yoe + era * 400
  let doy := doe - (365 * yoe + Int.fdiv yoe 4 - Int.fdiv yoe 100)
  let mp := Int.fdiv (5 * doy + 2) 153
  let d := doy - Int.fdiv (153 * mp + 2) 5 + 1
  let m := if mp < 10 then mp + 3 else mp - 9
  (if m ≤ 2 then y + 1 else y, m, d)

/-- Leap year test (Gregorian). -/
def isLeapYear (y : Int) : Bool :=
  (Int.emod y 4 = 0 && Int.emod y 100 ≠ 0) || Int.emod y 400 = 0

/-- Number of days in a month. -/
def daysInMonth (y m : Int) : Int :=
  if m = 2 then (if isLeapYear y then 29 else 28)
  else if m = 4 ∨ m = 6 ∨ m = 9 ∨ m = 11 then 30
  else 31

/-- Construct a datetime from validated civil fields; fails (like the
`datetime` constructor raising `ValueError`) when a field is out of range. -/
def mkDateTime (y mo d h mi sec us : Int) (tz : Option Int) : Option PyDateTime :=
  if 1 ≤ y ∧ y ≤ 9999 ∧ 1 ≤ mo ∧ mo ≤ 12 ∧ 1 ≤ d ∧ d ≤ daysInMonth y mo ∧
     0 ≤ h ∧ h ≤ 23 ∧ 0 ≤ mi ∧ mi ≤ 59 ∧ 0 ≤ sec ∧ sec ≤ 59 ∧ 0 ≤ us ∧ us ≤ 999999 then
    some ⟨(daysFromCivil y mo d * 86400 + h * 3600 + mi * 60 + sec) * 1000000 + us, tz⟩
  else none

/-- Timestamp of 0001-01-01T00:00:00 (`datetime.min`). -/
def minTimestamp : Int := -62135596800

/-- Timestamp of 9999-12-31T23:59:59 (whole-second part of `datetime.max`). -/
def maxTimestamp : Int := 253402300799

/-- Model of `datetime.fromtimestamp(n)` on whole seconds (process timezone
UTC): fails with `ValueError` outside the representable year range 1..9999. -/
def fromtimestamp (n : Int) : Option PyDateTime :=
  if minTimestamp ≤ n ∧ n ≤ maxTimestamp then some ⟨n * 1000000, none⟩ else none

/-- Left-pad the decimal form of a non-negative integer with zeros. -/
def padNum (width : Nat) (n : Int) : String :=
  let s := toString n.toNat
  ⟨List.replicate (width - s.length) '0' ++ s.toList⟩

/-- Render the timezone suffix `±HH:MM` of an aware datetime. -/
def tzSuffix : Option Int → String
  | none => ""
  | some off =>
    let sign := if off < 0 then "-" else "+"
    let a := if off < 0 then -off else off
    sign ++ padNum 2 (Int.fdiv a 60) ++ ":" ++ padNum 2 (Int.fmod a 60)

/-- Model of `datetime.isoformat(sep)`: `YYYY-MM-DD{sep}HH:MM:SS[.ffffff][±HH:MM]`,
omitting the microsecond part when zero. -/
def isoformatSep (sep : String) (dt : PyDateTime) : String :=
  let days := Int.fdiv dt.micros 86400000000
  let rem := Int.fmod dt.micros 86400000000
  let ymd := civilFromDays days
  let secs := Int.fdiv rem 1000000
  let us := Int.fmod rem 1000000
  let h := Int.fdiv secs 3600
  let mi := Int.fmod (Int.fdiv secs 60) 60
  let sec := Int.fmod secs 60
  padNum 4 ymd.1 ++ "-" ++ padNum 2 ymd.2.1 ++ "-" ++ padNum 2 ymd.2.2 ++ sep ++
    padNum 2 h ++ ":" ++ padNum 2 mi ++ ":" ++ padNum 2 sec ++
    (if us = 0 then "" else "." ++ padNum 6 us) ++ tzSuffix dt.tzmin

/-- Model of `datetime.isoformat()` (separator `T`). -/
def PyDateTime.isoformat (dt : PyDateTime) : String := isoformatSep "T" dt

/-- Model of `str(datetime)` (separator space). -/
def PyDateTime.strForm (dt : PyDateTime) : String := isoformatSep " " dt

/-! ### Date/time parsing

`fromisoformat` and `strptime` are models of the Python standard library
parsers (restricted to the behaviours the repository exercises);
`parse_datetime_str` is the string core of `data_cleaners.parse_datetime`,
which tries ISO parsing, then the fixed `DATE_FORMATS` list, then a regular
expression scan for an embedded `YYYY-MM-DD[T ]HH:MM` substring. -/

/-- Decimal digit test. -/
def isDigitChar (c : Char) : Bool := '0' ≤ c && c ≤ '9'

/-- Value of a digit list, most significant first. -/
def digitsVal (cs : List Char) : Nat :=
  cs.foldl (fun acc c => acc * 10 + (c.toNat - 48)) 0

/-- Take exactly `n` leading digits. -/
def takeNDigits (n : Nat) (cs : List Char) : Option (Nat × List Char) :=
  let pre := cs.take n
  if pre.length = n && pre.all isDigitChar then some (digitsVal pre, cs.drop n) else none

/-- Take a maximal nonempty run of digits. -/
def takeDigits1 (cs : List Char) : Option (List Char × List Char) :=
  let pre := cs.takeWhile isDigitChar
  if pre.isEmpty then none else some (pre, cs.dropWhile isDigitChar)

/-- Parse an ISO fractional-second part (1+ digits, truncated to 6). -/
def parseFrac (cs : List Char) : Option (Nat × List Char) :=
  match takeDigits1 cs with
  | none => none
  | some (ds, rest) =>
    let ds6 := ds.take 6
    some (digitsVal ds6 * 10 ^ (6 - ds6.length), rest)

/-- Parse an ISO timezone suffix: `Z`, or `±HH[:MM|MM]`; returns the offset
in minutes together with the remaining input. -/
def parseIsoTz (cs : List Char) : Option (Option Int × List Char) :=
  match cs with
  | [] => some (none, [])
  | 'Z' :: rest => some (some 0, rest)
  | 'z' :: rest => some (some 0, rest)
  | c :: rest =>
    if c = '+' ∨ c = '-' then
      match takeNDigits 2 rest with
      | none => none
      | some (hh, rest2) =>
        let cont := fun (mm : Nat) (rest3 : List Char) =>
          if hh ≤ 23 ∧ mm ≤ 59 then
            let off : Int := (hh : Int) * 60 + (mm : Int)
            some (some (if c = '-' then -off else off), rest3)
          else none
        match rest2 with
        | ':' :: rest3 =>
          match takeNDigits 2 rest3 with
          | some (mm, rest4) => cont mm rest4
          | none => none
        | _ =>
          match takeNDigits 2 rest2 with
          | some (mm, rest4) => cont mm rest4
          | none => cont 0 rest2
    else none

/-- Parse the time-of-day part of an ISO string (after the separator):
`HH[:MM[:SS[.ffffff]]]` or the basic `HHMM[SS]`, then a timezone suffix. -/
def parseIsoTime (cs : List Char) : Option (Nat × Nat × Nat × Nat × Option Int) :=
  match takeNDigits 2 cs with
  | none => none
  | some (h, rest) =>
    let finish := fun (mi sec us : Nat) (rest2 : List Char) =>
      match parseIsoTz rest2 with
      | some (tz, []) => some (h, mi, sec, us, tz)
      | _ => none
    let fracThen := fun (mi sec : Nat) (rest2 : List Char) =>
      match rest2 with
      | '.' :: rest3 =>
        match parseFrac rest3 with
        | some (us, rest4) => finish mi sec us rest4
        | none => none
      | ',' :: rest3 =>
        match parseFrac rest3 with
        | some (us, rest4) => finish mi sec us rest4
        | none => none
      | _ => finish mi sec 0 rest2
    match rest with
    | ':' :: rest2 =>
      match takeNDigits 2 rest2 with
      | none => none
      | some (mi, rest3) =>
        match rest3 with
        | ':' :: rest4 =>
          match takeNDigits 2 rest4 with
          | none => none
          | some (sec, rest5) => fracThen mi sec rest5
        | _ => fracThen mi 0 rest3
    | _ =>
      match takeNDigits 2 rest with
      | some (mi, rest3) =>
        match takeNDigits 2 rest3 with
        | some (sec, rest4) => fracThen mi sec rest4
        | none => fracThen mi 0 rest3
      | none => fracThen 0 0 rest

/-- Model of `datetime.fromisoformat` (Python 3.11-style, restricted to the
common extended `YYYY-MM-DD` and basic `YYYYMMDD` date forms with an optional
`T`/space separator, time of day, fraction and offset). -/
def fromisoformat (s : String) : Option PyDateTime :=
  let cs := s.toList
  let withDate := fun (y mo d : Nat) (rest : List Char) =>
    match rest with
    | [] => mkDateTime y mo d 0 0 0 0 none
    | sep :: restT =>
      if sep = 'T' ∨ sep = ' ' then
        match parseIsoTime restT with
        | some (h, mi, sec, us, tz) => mkDateTime y mo d h mi sec us tz
        | none => none
      else none
  match takeNDigits 4 cs with
  | none => none
  | some (y, rest) =>
    match rest with
    | '-' :: rest2 =>
      match takeNDigits 2 rest2 with
      | none => none
      | some (mo, rest3) =>
        match rest3 with
        | '-' :: rest4 =>
          match takeNDigits 2 rest4 with
          | none => none
          | some (d, rest5) => withDate y mo d rest5
        | _ => none
    | _ =>
      match takeNDigits 4 rest with
      | some (md, rest2) => withDate y (md / 100) (md % 100) rest2
      | none => none

/-- Partially parsed `strptime` fields (defaults as in Python: 1900-01-01). -/
structure TimeFields where
  y : Nat := 1900
  mo : Nat := 1
  d : Nat := 1
  h : Nat := 0
  mi : Nat := 0
  sec : Nat := 0
  us : Nat := 0
  tz : Option Int := none
  h12 : Option Nat := none
  pm : Option Bool := none

/-- Numeric `strptime` field: prefer two digits when the two-digit value is
in range, else one digit (mirrors the alternation-ordered regexes used by
Python's `_strptime`). -/
def takeField (lo hi : Nat) (cs : List Char) : Option (Nat × List Char) :=
  match cs with
  | c1 :: c2 :: rest =>
    if isDigitChar c1 && isDigitChar c2 then
      let v2 := digitsVal [c1, c2]
      if lo ≤ v2 ∧ v2 ≤ hi then some (v2, rest)
      else
        let v1 := digitsVal [c1]
        if lo ≤ v1 ∧ v1 ≤ 9 then some (v1, c2 :: rest) else none
    else if isDigitChar c1 then
      let v1 := digitsVal [c1]
      if lo ≤ v1 ∧ v1 ≤ 9 then some (v1, c2 :: rest) else none
    else none
  | [c1] =>
    if isDigitChar c1 then
      let v1 := digitsVal [c1]
      if lo ≤ v1 ∧ v1 ≤ 9 then some (v1, []) else none
    else none
  | [] => none

/-- Run a `strptime` format over the input, accumulating fields.
Supports the directives used by `DATE_FORMATS`:
`%Y %m %d %H %M %S %f %z %I %p`; literal spaces match one or more spaces. -/
def strptimeRun : List Char → List Char → TimeFields → Option TimeFields
  | [], [], f => some f
  | [], _ :: _, _ => none
  | '%' :: dir :: fmtRest, input, f =>
    match dir with
    | 'Y' =>
      match takeNDigits 4 input with
      | some (v, rest) => strptimeRun fmtRest rest { f with y := v }
      | none => none
    | 'm' =>
      match takeField 1 12 input with
      | some (v, rest) => strptimeRun fmtRest rest { f with mo := v }
      | none => none
    | 'd' =>
      match takeField 1 31 input with
      | some (v, rest) => strptimeRun fmtRest rest { f with d := v }
      | none => none
    | 'H' =>
      match takeField 0 23 input with
      | some (v, rest) => strptimeRun fmtRest rest { f with h := v }
      | none => none
    | 'M' =>
      match takeField 0 59 input with
      | some (v, rest) => strptimeRun fmtRest rest { f with mi := v }
      | none => none
    | 'S' =>
      match takeField 0 61 input with
      | some (v, rest) => strptimeRun fmtRest rest { f with sec := v }
      | none => none
    | 'f' =>
      match takeDigits1 input with
      | some (ds, rest) =>
        if ds.length ≤ 6 then
          strptimeRun fmtRest rest { f with us := digitsVal ds * 10 ^ (6 - ds.length) }
        else none
      | none => none
    | 'z' =>
      match parseIsoTz input with
      | some (some off, rest) => strptimeRun fmtRest rest { f with tz := some off }
      | _ => none
    | 'I' =>
      match takeField 1 12 input with
      | some (v, rest) => strptimeRun fmtRest rest { f with h12 := some v }
      | none => none
    | 'p' =>
      match input with
      | a :: p :: rest =>
        if (a = 'A' ∨ a = 'a') ∧ (p = 'M' ∨ p = 'm') then
          strptimeRun fmtRest rest { f with pm := some false }
        else if (a = 'P' ∨ a = 'p') ∧ (p = 'M' ∨ p = 'm') then
          strptimeRun fmtRest rest { f with pm := some true }
        else none
      | _ => none
    | _ => none
  | ' ' :: fmtRest, input, f =>
    match input with
    | ' ' :: rest => strptimeRun fmtRest (rest.dropWhile (· = ' ')) f
    | _ => none
  | fc :: fmtRest, ic :: inputRest, f =>
    if fc = ic then strptimeRun fmtRest inputRest f else none
  | _ :: _, [], _ => none

/-- Model of `datetime.strptime(s, fmt)` for the directives above. -/
def strptime (s fmt : String) : Option PyDateTime :=
  match strptimeRun fmt.toList s.toList {} with
  | none => none
  | some f =>
    let hour : Nat :=
      match f.h12, f.pm with
      | some h12, some true => h12 % 12 + 12
      | some h12, _ => h12 % 12
      | none, _ => f.h
    mkDateTime f.y f.mo f.d hour f.mi f.sec f.us f.tz

/-- The explicit format list `DATE_FORMATS` of `data_cleaners.py`. -/
def DATE_FORMATS : List String :=
  ["%Y-%m-%dT%H:%M:%S.%f%z",
   "%Y-%m-%dT%H:%M:%S%z",
   "%Y-%m-%d %H:%M:%S.%f",
   "%Y-%m-%d %H:%M:%S",
   "%Y%m%dT%H%M%S",
   "%d.%m.%Y %H:%M:%S",
   "%m/%d/%Y %I:%M %p"]

/-- First format of `DATE_FORMATS` that parses the string. -/
def tryFormats (s : String) : Option PyDateTime :=
  (DATE_FORMATS.filterMap (fun fmt => strptime s fmt)).head?

/-- Match the regex `\d{4}-\d{2}-\d{2}[T ]\d{2}:\d{2}`
at the head of the input, returning the 16 matched characters. -/
def matchDateHere (cs : List Char) : Option (List Char) :=
  let pre := cs.take 16
  if pre.length = 16 then
    match pre with
    | [a, b, c, d, e, f, g, h, i, j, k, l, m, n, o, p] =>
      if [a, b, c, d].all isDigitChar && e = '-' && [f, g].all isDigitChar && h = '-' &&
         [i, j].all isDigitChar && (k = 'T' ∨ k = ' ') && [l, m].all isDigitChar &&
         n = ':' && [o, p].all isDigitChar then
        some pre
      else none
    | _ => none
  else none

/-- Leftmost match of the embedded-date regex (`re.search`). -/
def findDatePattern : List Char → Option (List Char)
  | [] => none
  | c :: rest =>
    match matchDateHere (c :: rest) with
    | some m => some m
    | none => findDatePattern rest

/-- Python whitespace characters for `str.strip`. -/
def isSpaceChar (c : Char) : Bool :=
  c = ' ' ∨ c = '\t' ∨ c = '\n' ∨ c = '\r' ∨ c = '\x0b' ∨ c = '\x0c'

/-- Model of `str.strip()`: remove leading and trailing whitespace. -/
def pyStrip (s : String) : String :=
  ⟨((s.toList.dropWhile isSpaceChar).reverse.dropWhile isSpaceChar).reverse⟩

/-- String core of `data_cleaners.parse_datetime`: strip, try ISO, try the
format list, then re-parse a regex-extracted `YYYY-MM-DD[T ]HH:MM` substring.
The recursion on an extracted substring is bounded by fuel, standing in for
Python's recursion limit; exhausted fuel is a parse failure. -/
def parseDatetimeStrF : Nat → String → Option PyDateTime
  | 0, _ => none
  | fuel+1, s0 =>
    let s := pyStrip s0
    match fromisoformat s with
    | some d => some d
    | none =>
      match tryFormats s with
      | some d => some d
      | none =>
        match findDatePattern s.toList with
        | some sub => parseDatetimeStrF fuel ⟨sub⟩
        | none => none

/-- `parse_datetime` on an already-string value. -/
def parse_datetime_str (s : String) : Option PyDateTime := parseDatetimeStrF 1000 s

/-! ### Python values

A mutual inductive model of the dynamically-typed values the service
manipulates: JSON scalars and containers plus the extra runtime types the
cleaners handle (`bytes`, `datetime`, `Decimal`). Python `tuple`/`set`
values are represented as lists, exactly as `_process_value` treats them.
`float` and `Decimal` carry exact rationals. Dictionaries are ordered
key/value sequences with string keys (as produced by JSON input). -/

mutual
inductive PyVal where
  | pynull
  | bool (b : Bool)
  | int (n : Int)
  | float (q : Rat)
  | str (s : String)
  | bytes (bs : List Nat)
  | pydate (d : PyDateTime)
  | decimal (q : Rat)
  | list (items : PyList)
  | dict (entries : PyDict)
  deriving DecidableEq
inductive PyList where
  | nil
  | cons (hd : PyVal) (tl : PyList)
  deriving DecidableEq
inductive PyDict where
  | nil
  | cons (key : String) (val : PyVal) (tl : PyDict)
  deriving DecidableEq
end

/-- The underlying list of a `PyList`. -/
def PyList.toList : PyList → List PyVal
  | .nil => []
  | .cons hd tl => hd :: tl.toList

/-- Build a `PyList` from a Lean list. -/
def PyList.ofList : List PyVal → PyList
  | [] => .nil
  | hd :: tl => .cons hd (PyList.ofList tl)

/-- The underlying association list of a `PyDict`. -/
def PyDict.toList : PyDict → List (String × PyVal)
  | .nil => []
  | .cons k v tl => (k, v) :: tl.toList

/-- Build a `PyDict` from an association list. -/
def PyDict.ofList : List (String × PyVal) → PyDict
  | [] => .nil
  | (k, v) :: tl => .cons k v (PyDict.ofList tl)

theorem PyList.ofList_round (l : List PyVal) : (PyList.ofList l).toList = l := by
  induction l with
  | nil => rfl
  | cons hd tl ih => simp [PyList.ofList, PyList.toList, ih]

theorem PyDict.ofListToList (l : List (String × PyVal)) : (PyDict.ofList l).toList = l := by
  induction l with
  | nil => rfl
  | cons hd tl ih => cases hd; simp [PyDict.ofList, PyDict.toList, ih]

/-- Lookup in a `PyDict` (`dict.get`): value at the first matching key. -/
def PyDict.get : PyDict → String → Option PyVal
  | .nil, _ => none
  | .cons k v tl, key => if k = key then some v else tl.get key

/-- Key membership in a `PyDict` (Python `key in dict`). -/
def PyDict.hasKey (d : PyDict) (k : String) : Bool := (d.get k).isSome

/-- Insert preserving first-insertion order (Python `dict.__setitem__`):
replace the value at an existing key in place, else append. -/
def PyDict.setItem : PyDict → String → PyVal → PyDict
  | .nil, k, v => .cons k v .nil
  | .cons k0 v0 tl, k, v =>
    if k0 = k then .cons k0 v tl else .cons k0 v0 (tl.setItem k v)

/-- Python truthiness (`bool(value)`) of a model value. -/
def pyTruthy : PyVal → Bool
  | .pynull => false
  | .bool b => b
  | .int n => n ≠ 0
  | .float q => q ≠ 0
  | .str s => s ≠ ""
  | .bytes bs => bs ≠ []
  | .pydate _ => true
  | .decimal q => q ≠ 0
  | .list l => l != PyList.nil
  | .dict d => d != PyDict.nil

/-- Model of `data_cleaners.deep_clean._is_meaningful`: strings and byte
strings must be non-blank after stripping; every other value is meaningful
unless it is `None`. -/
def is_meaningful : PyVal → Bool
  | .str s => pyStrip s ≠ ""
  | .bytes bs => bs.dropWhile (fun b => b = 32 ∨ b = 9 ∨ b = 10 ∨ b = 13 ∨ b = 11 ∨ b = 12) ≠ []
  | .pynull => false
  | _ => true

/-- Check whether `pre` is a prefix of the character list `l`. -/
def charsPrefix : List Char → List Char → Bool
  | [], _ => true
  | _ :: _, [] => false
  | p :: ps, c :: cs => p = c && charsPrefix ps cs

/-- Model of `k.startswith(("__", "javascript", "xml"))` from
`deep_clean._process_value`: keys with these prefixes are dropped. -/
def badKey (k : String) : Bool :=
  charsPrefix "__".toList k.toList || charsPrefix "javascript".toList k.toList ||
    charsPrefix "xml".toList k.toList

/-! ### `str()` and `repr()` renderings

Needed because `parse_datetime` calls `str(value)` on arbitrary values and
`normalize_for_hashing._convert_value` falls back to `str(cleaned_value)`.
Floats are rendered by exact decimal expansion of the rational (Python's
shortest-round-trip `repr` agrees with this on the terminating decimals the
pipeline produces). -/

/-- Decimal rendering of a rational: exact when the denominator divides a
power of ten (as for every IEEE double), else a 17-digit approximation. -/
def ratDecimalStr (q : Rat) : String :=
  if q.den = 1 then toString q.num ++ ".0"
  else
    let sign := if q.num < 0 then "-" else ""
    let a := if q.num < 0 then -q.num else q.num
    let k := (List.range 18).find? (fun k => (10 ^ k : Nat) % q.den = 0) |>.getD 17
    let scaled := (a * 10 ^ k) / (q.den : Int)
    let digits := toString scaled
    let ds := digits.toList
    let intPart := ds.take (ds.length - k)
    let fracPart := ds.drop (ds.length - k)
    sign ++ (if intPart.isEmpty then "0" else String.mk intPart) ++ "." ++
      (if fracPart.isEmpty then "0" else String.mk fracPart)

/-- Escape one character inside a Python single-quoted `repr` literal. -/
def pyReprEscape (c : Char) : List Char :=
  if c = '\\' then ['\\', '\\']
  else if c = '\'' then ['\\', '\'']
  else if c = '\n' then ['\\', 'n']
  else if c = '\r' then ['\\', 'r']
  else if c = '\t' then ['\\', 't']
  else [c]

/-- Python `repr` of a string (single-quoted form). -/
def pyReprStr (s : String) : String :=
  "'" ++ String.mk (s.toList.flatMap pyReprEscape) ++ "'"

/-- Model of `repr(datetime)`: `datetime.datetime(y, m, d, h, min[, s[, us]])`
with trailing zero seconds/microseconds omitted. -/
def pyDateRepr (dt : PyDateTime) : String :=
  let days := Int.fdiv dt.micros 86400000000
  let rem := Int.fmod dt.micros 86400000000
  let ymd := civilFromDays days
  let secs := Int.fdiv rem 1000000
  let us := Int.fmod rem 1000000
  let h := Int.fdiv secs 3600
  let mi := Int.fmod (Int.fdiv secs 60) 60
  let sec := Int.fmod secs 60
  "datetime.datetime(" ++ toString ymd.1 ++ ", " ++ toString ymd.2.1 ++ ", " ++
    toString ymd.2.2 ++ ", " ++ toString h ++ ", " ++ toString mi ++
    (if sec = 0 ∧ us = 0 then "" else ", " ++ toString sec) ++
    (if us = 0 then "" else ", " ++ toString us) ++ ")"

mutual
/-- Model of Python `repr(value)` for model values (container elements are
rendered with `repr`, as Python does inside `str(list)`/`str(dict)`). -/
def pyRepr : PyVal → String
  | .pynull => "None"
  | .bool b => if b then "True" else "False"
  | .int n => toString n
  | .float q => ratDecimalStr q
  | .str s => pyReprStr s
  | .bytes bs => "b" ++ pyReprStr (utf8Decode bs)
  | .pydate d => pyDateRepr d
  | .decimal q => "Decimal('" ++ ratDecimalStr q ++ "')"
  | .list l => "[" ++ pyReprList l ++ "]"
  | .dict d => "\x7b" ++ pyReprDict d ++ "\x7d"
/-- Comma-separated `repr` of list items. -/
def pyReprList : PyList → String
  | .nil => ""
  | .cons hd .nil => pyRepr hd
  | .cons hd (.cons k v) => pyRepr hd ++ ", " ++ pyReprList (.cons k v)
/-- Comma-separated `repr` of dict items. -/
def pyReprDict : PyDict → String
  | .nil => ""
  | .cons k v .nil => pyReprStr k ++ ": " ++ pyRepr v
  | .cons k v (.cons k2 v2 tl) => pyReprStr k ++ ": " ++ pyRepr v ++ ", " ++ pyReprDict (.cons k2 v2 tl)
end

/-- Model of Python `str(value)`: strings unchanged, datetimes in space-
separated ISO form, every other value via `repr`. -/
def pyStr : PyVal → String
  | .str s => s
  | .pydate d => d.strForm
  | .bytes bs => "b" ++ pyReprStr (utf8Decode bs)
  | .decimal q => if q.den = 1 then toString q.num else ratDecimalStr q
  | v => pyRepr v

/-- Model of `data_cleaners.parse_datetime` on an arbitrary value: datetimes
pass through; ints and floats (including booleans, which are Python ints) go
through `fromtimestamp`; every other value is stringified, stripped and
parsed by `parse_datetime_str`. A float timestamp is truncated to whole
seconds here (the sub-second part plays no role in any property below). -/
def parse_datetime : PyVal → Option PyDateTime
  | .pydate d => some d
  | .int n => fromtimestamp n
  | .bool b => fromtimestamp (if b then 1 else 0)
  | .float q => fromtimestamp q.floor
  | v => parse_datetime_str (pyStr v)

/-! ### JSON parsing (model of `json.loads`)

A fuel-driven recursive-descent parser for strict JSON: the fuel only bounds
nesting and one unit per input character suffices, so the wrapper always
supplies enough. Duplicate object keys follow Python semantics (last value
wins, first insertion position kept). -/

/-- JSON whitespace accepted by the decoder. -/
def jsonWs (c : Char) : Bool := c = ' ' ∨ c = '\t' ∨ c = '\n' ∨ c = '\r'

/-- Drop leading JSON whitespace. -/
def skipJsonWs (cs : List Char) : List Char := cs.dropWhile jsonWs

/-- Hexadecimal digit value. -/
def hexVal (c : Char) : Option Nat :=
  if '0' ≤ c ∧ c ≤ '9' then some (c.toNat - 48)
  else if 'a' ≤ c ∧ c ≤ 'f' then some (c.toNat - 87)
  else if 'A' ≤ c ∧ c ≤ 'F' then some (c.toNat - 55)
  else none

/-- Parse a JSON string body after the opening quote; returns the decoded
characters and the input after the closing quote. Handles the standard
escapes and `\uXXXX` (combining surrogate pairs; a lone surrogate, which
Python would keep, becomes U+FFFD since Lean characters are scalars). -/
def jsonStringBodyF : Nat → List Char → Option (List Char × List Char)
  | 0, _ => none
  | _, [] => none
  | _+1, '"' :: rest => some ([], rest)
  | f+1, '\\' :: rest =>
    match rest with
    | 'u' :: a :: b :: c :: d :: rest2 =>
      match hexVal a, hexVal b, hexVal c, hexVal d with
      | some va, some vb, some vc, some vd =>
        let hi := ((va * 16 + vb) * 16 + vc) * 16 + vd
        if 0xD800 ≤ hi ∧ hi ≤ 0xDBFF then
          match rest2 with
          | '\\' :: 'u' :: a2 :: b2 :: c2 :: d2 :: rest3 =>
            match hexVal a2, hexVal b2, hexVal c2, hexVal d2 with
            | some va2, some vb2, some vc2, some vd2 =>
              let lo := ((va2 * 16 + vb2) * 16 + vc2) * 16 + vd2
              if 0xDC00 ≤ lo ∧ lo ≤ 0xDFFF then
                match jsonStringBodyF f rest3 with
                | some (cs, rest4) =>
                  some (charOfNat (0x10000 + (hi - 0xD800) * 1024 + (lo - 0xDC00)) :: cs, rest4)
                | none => none
              else
                match jsonStringBodyF f rest3 with
                | some (cs, rest4) => some (charOfNat hi :: charOfNat lo :: cs, rest4)
                | none => none
            | _, _, _, _ => none
          | _ =>
            match jsonStringBodyF f rest2 with
            | some (cs, rest3) => some (charOfNat hi :: cs, rest3)
            | none => none
        else
          match jsonStringBodyF f rest2 with
          | some (cs, rest3) => some (charOfNat hi :: cs, rest3)
          | none => none
      | _, _, _, _ => none
    | e :: rest2 =>
      let esc : Option Char :=
        if e = '"' then some '"'
        else if e = '\\' then some '\\'
        else if e = '/' then some '/'
        else if e = 'b' then some '\x08'
        else if e = 'f' then some '\x0c'
        else if e = 'n' then some '\n'
        else if e = 'r' then some '\r'
        else if e = 't' then some '\t'
        else none
      match esc with
      | some c =>
        match jsonStringBodyF f rest2 with
        | some (cs, rest3) => some (c :: cs, rest3)
        | none => none
      | none => none
    | [] => none
  | f+1, c :: rest =>
    if c.toNat < 0x20 then none
    else
      match jsonStringBodyF f rest with
      | some (cs, rest2) => some (c :: cs, rest2)
      | none => none

/-- Parse a JSON string body with enough fuel (one unit per character). -/
def jsonStringBody (cs : List Char) : Option (List Char × List Char) :=
  jsonStringBodyF (cs.length + 1) cs

/-- Parse a JSON number: `-?(0|[1-9][0-9]*)(\.[0-9]+)?([eE][-+]?[0-9]+)?`.
Integers without fraction/exponent become `int`; everything else becomes an
exact-rational `float`. -/
def parseJsonNumber (cs : List Char) : Option (PyVal × List Char) :=
  let (neg, cs1) := match cs with
    | '-' :: rest => (true, rest)
    | _ => (false, cs)
  match takeDigits1 cs1 with
  | none => none
  | some (ds, rest1) =>
    if ds.length > 1 ∧ ds.headD '0' = '0' then none
    else
      let intval : Int := (digitsVal ds : Int)
      let mkFloat := fun (mantNum : Int) (mantDen : Nat) (ex : Int) =>
        let num := if 0 ≤ ex then mantNum * 10 ^ ex.toNat else mantNum
        let den := if 0 ≤ ex then mantDen else mantDen * 10 ^ (-ex).toNat
        PyVal.float (mkRat (if neg then -num else num) den)
      let parseExp := fun (mantNum : Int) (mantDen : Nat) (rest2 : List Char) (isFloat : Bool) =>
        match rest2 with
        | e :: rest3 =>
          if e = 'e' ∨ e = 'E' then
            let (eneg, rest4) := match rest3 with
              | '+' :: r => (false, r)
              | '-' :: r => (true, r)
              | _ => (false, rest3)
            match takeDigits1 rest4 with
            | some (eds, rest5) =>
              let ex : Int := (digitsVal eds : Int)
              some (mkFloat mantNum mantDen (if eneg then -ex else ex), rest5)
            | none => none
          else
            if isFloat then some (mkFloat mantNum mantDen 0, rest2)
            else some (PyVal.int (if neg then -intval else intval), rest2)
        | [] =>
          if isFloat then some (mkFloat mantNum mantDen 0, [])
          else some (PyVal.int (if neg then -intval else intval), [])
      match rest1 with
      | '.' :: rest2 =>
        match takeDigits1 rest2 with
        | some (fds, rest3) =>
          parseExp (intval * 10 ^ fds.length + (digitsVal fds : Int)) (10 ^ fds.length) rest3 true
        | none => none
      | _ => parseExp intval 1 rest1 false

mutual
/-- Parse one JSON value (after optional whitespace). -/
def jsonValueF : Nat → List Char → Option (PyVal × List Char)
  | 0, _ => none
  | f+1, cs =>
    match skipJsonWs cs with
    | 'n' :: 'u' :: 'l' :: 'l' :: rest => some (.pynull, rest)
    | 't' :: 'r' :: 'u' :: 'e' :: rest => some (.bool true, rest)
    | 'f' :: 'a' :: 'l' :: 's' :: 'e' :: rest => some (.bool false, rest)
    | '"' :: rest =>
      match jsonStringBody rest with
      | some (content, rest2) => some (.str ⟨content⟩, rest2)
      | none => none
    | '[' :: rest =>
      match skipJsonWs rest with
      | ']' :: rest2 => some (.list .nil, rest2)
      | _ =>
        match jsonArrayItemsF f rest with
        | some (items, rest2) => some (.list (PyList.ofList items), rest2)
        | none => none
    | '\x7b' :: rest =>
      match skipJsonWs rest with
      | '\x7d' :: rest2 => some (.dict .nil, rest2)
      | _ =>
        match jsonObjectItemsF f rest with
        | some (entries, rest2) =>
          some (.dict (entries.foldl (fun d kv => d.setItem kv.1 kv.2) PyDict.nil), rest2)
        | none => none
    | other => parseJsonNumber other
/-- Parse comma-separated array items up to the closing bracket. -/
def jsonArrayItemsF : Nat → List Char → Option (List PyVal × List Char)
  | 0, _ => none
  | f+1, cs =>
    match jsonValueF f cs with
    | some (v, rest) =>
      match skipJsonWs rest with
      | ',' :: rest2 =>
        match jsonArrayItemsF f rest2 with
        | some (vs, rest3) => some (v :: vs, rest3)
        | none => none
      | ']' :: rest2 => some ([v], rest2)
      | _ => none
    | none => none
/-- Parse comma-separated `"key": value` pairs up to the closing brace. -/
def jsonObjectItemsF : Nat → List Char → Option (List (String × PyVal) × List Char)
  | 0, _ => none
  | f+1, cs =>
    match skipJsonWs cs with
    | '"' :: rest =>
      match jsonStringBody rest with
      | some (key, rest2) =>
        match skipJsonWs rest2 with
        | ':' :: rest3 =>
          match jsonValueF f rest3 with
          | some (v, rest4) =>
            match skipJsonWs rest4 with
            | ',' :: rest5 =>
              match jsonObjectItemsF f rest5 with
              | some (kvs, rest6) => some ((⟨key⟩, v) :: kvs, rest6)
              | none => none
            | '\x7d' :: rest5 => some ([(⟨key⟩, v)], rest5)
            | _ => none
          | none => none
        | _ => none
      | none => none
    | _ => none
end

/-- Model of `json.loads`: parse one value and require only whitespace after
it. -/
def json_loads (s : String) : Option PyVal :=
  match jsonValueF (s.length + 1) s.toList with
  | some (v, rest) => if skipJsonWs rest = [] then some v else none
  | none => none

/-! ### Regex repair passes

Each `re.sub` used by the two JSON repair routines is modelled as a direct
character-list transformation with exactly the matching semantics of the
pattern (leftmost, non-overlapping, with the backtracking behaviour worked
out where the pattern allows it). Fuel is one unit per character. -/

/-- Word character of the patterns (`\w`, ASCII reading). -/
def isWordChar (c : Char) : Bool :=
  ('a' ≤ c && c ≤ 'z') || ('A' ≤ c && c ≤ 'Z') || ('0' ≤ c && c ≤ '9') || c = '_'

/-- Model of `re.sub(r"(?<!\\)'", '"', s)`: replace every single quote not
preceded by a backslash (in the original string) with a double quote. Shared
first fix of `deep_clean._fix_json_string` and
`fix_invalid_json._apply_fixes`. -/
def fixQuotesGo : Option Char → List Char → List Char
  | _, [] => []
  | prev, c :: rest =>
    (if c = '\'' ∧ prev ≠ some '\\' then '"' else c) :: fixQuotesGo (some c) rest

/-- String wrapper for `fixQuotesGo`. -/
def fixQuotes (s : String) : String := ⟨fixQuotesGo none s.toList⟩

/-- Model of `re.sub(r"\\x([0-9a-fA-F]\x7b2\x7d)", chr ∘ hex, s)`: decode
literal `\xHH` escape sequences (second fix of `_fix_json_string`). -/
def fixHexEscapesF : Nat → List Char → List Char
  | 0, l => l
  | f+1, '\\' :: 'x' :: h1 :: h2 :: rest =>
    match hexVal h1, hexVal h2 with
    | some a, some b => charOfNat (16 * a + b) :: fixHexEscapesF f rest
    | _, _ => '\\' :: fixHexEscapesF f ('x' :: h1 :: h2 :: rest)
  | _+1, [] => []
  | f+1, c :: rest => c :: fixHexEscapesF f rest

/-- String wrapper for `fixHexEscapesF`. -/
def fixHexEscapes (s : String) : String := ⟨fixHexEscapesF s.length s.toList⟩

/-- Model of removing a comma standing (up to whitespace) before a closing
brace/bracket: the lazy `re.sub(r",\s*?([\x7d\]])", r"\1", s)` of
`_fix_json_string` and the greedy-with-lookahead
`re.sub(r",\s*(?=\s*[\x7d\]])", "", s)` of `_apply_fixes` produce the same
result, so both are modelled by this one pass. -/
def fixTrailingCommasF : Nat → List Char → List Char
  | 0, l => l
  | f+1, ',' :: rest =>
    match rest.dropWhile isSpaceChar with
    | b :: tail =>
      if b = '\x7d' ∨ b = ']' then b :: fixTrailingCommasF f tail
      else ',' :: fixTrailingCommasF f rest
    | [] => ',' :: fixTrailingCommasF f rest
  | _+1, [] => []
  | f+1, c :: rest => c :: fixTrailingCommasF f rest

/-- String wrapper for `fixTrailingCommasF`. -/
def fixTrailingCommas (s : String) : String := ⟨fixTrailingCommasF s.length s.toList⟩

/-- Model of `re.sub(r"([\x7b,]\s*)(\w+)(\s*:)", r"\1\"\2\"\3", s)`
(third fix of `_apply_fixes`): double-quote a bareword object key that
follows a brace or comma and precedes a colon. -/
def quoteBarewordKeysF : Nat → List Char → List Char
  | 0, l => l
  | f+1, c :: rest =>
    if c = '\x7b' ∨ c = ',' then
      let ws1 := rest.takeWhile isSpaceChar
      let r2 := rest.dropWhile isSpaceChar
      let word := r2.takeWhile isWordChar
      let r3 := r2.dropWhile isWordChar
      if word ≠ [] then
        let ws2 := r3.takeWhile isSpaceChar
        let r4 := r3.dropWhile isSpaceChar
        match r4 with
        | ':' :: tail =>
          c :: (ws1 ++ '"' :: word ++ '"' :: ws2 ++ ':' :: quoteBarewordKeysF f tail)
        | _ => c :: quoteBarewordKeysF f rest
      else c :: quoteBarewordKeysF f rest
    else c :: quoteBarewordKeysF f rest
  | _+1, [] => []

/-- String wrapper for `quoteBarewordKeysF`. -/
def quoteBarewordKeys (s : String) : String := ⟨quoteBarewordKeysF s.length s.toList⟩

/-- Stop characters of the second character class of the value-quoting
pattern below. -/
def notValueStop (c : Char) : Bool := ¬ (c = ',' ∨ c = '\x7d' ∨ c = ']' ∨ c = '\n')

/-- Model of `re.sub(r":\s*([^\"\x7b\[][^,\x7d\]\n]*)", r":\"\1\"", s)`
(fourth fix of `_apply_fixes`): wrap an unquoted value after a colon in
double quotes. The regex backtracks when the first character after the
greedy whitespace run is `"`, `\x7b` or `[`: the last whitespace character
then starts the captured group, so the replacement re-quotes from that
whitespace character onward. Whitespace consumed by `\s*` is dropped, as it
is part of the match but not of the replacement. -/
def quoteBareValuesF : Nat → List Char → List Char
  | 0, l => l
  | f+1, ':' :: rest =>
    let ws := rest.takeWhile isSpaceChar
    let rest2 := rest.dropWhile isSpaceChar
    (match rest2 with
    | [] =>
      if ws = [] then [':']
      else [':', '"', ws.getLastD ' ', '"']
    | c :: tail =>
      if ¬ (c = '"' ∨ c = '\x7b' ∨ c = '[') then
        let run := tail.takeWhile notValueStop
        let after := tail.dropWhile notValueStop
        ':' :: '"' :: (c :: run) ++ '"' :: quoteBareValuesF f after
      else if ws ≠ [] then
        let run := rest2.takeWhile notValueStop
        let after := rest2.dropWhile notValueStop
        ':' :: '"' :: (ws.getLastD ' ' :: run) ++ '"' :: quoteBareValuesF f after
      else ':' :: quoteBareValuesF f rest)
  | _+1, [] => []
  | f+1, c :: rest => c :: quoteBareValuesF f rest

/-- String wrapper for `quoteBareValuesF`. -/
def quoteBareValues (s : String) : String := ⟨quoteBareValuesF s.length s.toList⟩

/-- Model of `deep_clean._fix_json_string`: quotes, then `\xHH` escapes,
then trailing commas. -/
def fix_json_string (s : String) : String :=
  fixTrailingCommas (fixHexEscapes (fixQuotes s))

/-- Model of `fix_invalid_json._apply_fixes` (`normalize.py`): quotes,
trailing commas, bareword keys, then bare values. -/
def applyFixes (s : String) : String :=
  quoteBareValues (quoteBarewordKeys (fixTrailingCommas (fixQuotes s)))

/-- Model of `normalize.fix_invalid_json`: up to three parse attempts, each
failure followed by one `_apply_fixes` pass; `none` is the give-up sentinel
(`return None`). -/
def fix_invalid_json (s : String) : Option PyVal :=
  match json_loads s with
  | some v => some v
  | none =>
    let s1 := applyFixes s
    match json_loads s1 with
    | some v => some v
    | none =>
      let s2 := applyFixes s1
      match json_loads s2 with
      | some v => some v
      | none => none

/-! ### Deep clean (`data_cleaners.deep_clean`)

`processValue` is `_process_value`; `processDict`/`processList` are its dict
and sequence comprehensions. The final `json.dumps(..., default=...)`
validation of `deep_clean` cannot fail on model values (the `default` hook
stringifies anything non-primitive), so `deep_clean` coincides with
`_process_value`; the internal `except` arms that replace a sub-value by
`None` are likewise unreachable in the pure model. -/

/-- Model of `datetime.fromtimestamp` on a float timestamp (microseconds
truncated towards minus infinity; CPython rounds the sub-microsecond part,
which no property below exercises). -/
def fromtimestampRat (q : Rat) : Option PyDateTime :=
  if minTimestamp ≤ q.floor ∧ q.floor ≤ maxTimestamp then
    some ⟨Int.fdiv (q.num * 1000000) q.den, none⟩
  else none

/-- String fall-through of `_process_value`: try `parse_datetime` and keep
the canonical ISO form on success, the stripped string otherwise. -/
def processStrTail (s : String) : PyVal :=
  match parse_datetime_str s with
  | some d => .str d.isoformat
  | none => .str s

mutual
/-- Model of `deep_clean._process_value`. -/
def processValue : PyVal → PyVal
  | .int n =>
    match fromtimestamp n with
    | some d => .pydate d
    | none => .int n
  | .bool b =>
    match fromtimestamp (if b then 1 else 0) with
    | some d => .pydate d
    | none => .bool b
  | .float q =>
    match fromtimestampRat q with
    | some d => .pydate d
    | none => .float q
  | .dict entries => .dict (processDict entries)
  | .list items => .list (processList items)
  | .bytes bs => .str (utf8Decode bs)
  | .decimal q => .float q
  | .pydate d => .str d.isoformat
  | .str s0 =>
    let s := pyStrip s0
    let cs := s.toList
    if s ≠ "" ∧ (cs.headD ' ' = '\x7b' ∨ cs.headD ' ' = '[') ∧
        (cs.getLastD ' ' = '\x7d' ∨ cs.getLastD ' ' = ']') then
      match json_loads s with
      | some v => v
      | none =>
        match json_loads (fix_json_string s) with
        | some v => v
        | none => processStrTail s
    else processStrTail s
  | .pynull => .pynull
/-- The dict comprehension of `_process_value`: keep entries whose key has no
internal-looking prefix and whose value is meaningful, processing the kept
values. -/
def processDict : PyDict → PyDict
  | .nil => .nil
  | .cons k v tl =>
    if ¬ badKey k ∧ is_meaningful v then .cons k (processValue v) (processDict tl)
    else processDict tl
/-- The sequence comprehension of `_process_value`: keep meaningful items,
processed (tuples and sets also land here, becoming lists). -/
def processList : PyList → PyList
  | .nil => .nil
  | .cons hd tl =>
    if is_meaningful hd then .cons (processValue hd) (processList tl)
    else processList tl
end

/-- Model of `data_cleaners.deep_clean`. -/
def deep_clean (v : PyVal) : PyVal := processValue v

/-! ### JSON serialisation

`pyJsonDumpsVal` models `json.dumps(value, sort_keys=True,
ensure_ascii=False, default=str, separators=(",", ":"))` as used by
`normalize_for_hashing._convert_value`; `orjsonVal` models
`orjson.dumps(value, option=orjson.OPT_SORT_KEYS | orjson.OPT_NON_STR_KEYS)`
as used by `EventHashService.generate` (returning `none` where orjson raises
`TypeError`, e.g. on `bytes` and `Decimal`). Both sort object keys at every
level by the codepoint order Python uses for `str`. -/

/-- JSON string escaping shared by both serialisers: quote, backslash, the
short control escapes and `\u00XX` for other control characters; non-ASCII
characters stay raw (`ensure_ascii=False` / orjson's UTF-8 output). -/
def jsonEscapeChar (c : Char) : List Char :=
  if c = '"' then ['\\', '"']
  else if c = '\\' then ['\\', '\\']
  else if c = '\n' then ['\\', 'n']
  else if c = '\t' then ['\\', 't']
  else if c = '\r' then ['\\', 'r']
  else if c = '\x08' then ['\\', 'b']
  else if c = '\x0c' then ['\\', 'f']
  else if c.toNat < 0x20 then
    ['\\', 'u', '0', '0', hexChar (c.toNat / 16), hexChar (c.toNat % 16)]
  else [c]

/-- A JSON string literal. -/
def jsonQuote (s : String) : String := "\"" ++ ⟨s.toList.flatMap jsonEscapeChar⟩ ++ "\""

/-- Join with commas (compact separators). -/
def joinComma : List String → String
  | [] => ""
  | [x] => x
  | x :: y :: rest => x ++ "," ++ joinComma (y :: rest)

/-- Lexicographic order on character lists by code point — exactly Python's
`str` comparison (and the UTF-8 byte order orjson sorts by). -/
def charListLe : List Char → List Char → Bool
  | [], _ => true
  | _ :: _, [] => false
  | a :: as, b :: bs =>
    if a.toNat < b.toNat then true
    else if a.toNat = b.toNat then charListLe as bs
    else false

/-- Key comparison used by the `sort_keys` options. -/
def strLe (a b : String) : Bool := charListLe a.toList b.toList

/-- Sort rendered object entries by key (Python/orjson `sort_keys`). -/
def sortPairsByKey (ps : List (String × String)) : List (String × String) :=
  List.insertionSort (fun a b => strLe a.1 b.1) ps

/-- Render sorted object entries as a JSON object body. -/
def renderObjBody (ps : List (String × String)) : String :=
  joinComma ((sortPairsByKey ps).map (fun kv => jsonQuote kv.1 ++ ":" ++ kv.2))

mutual
/-- Model of `json.dumps(value, sort_keys=True, ensure_ascii=False,
default=str, separators=(",", ":"))`: primitives natively, anything else
through `str()`. -/
def pyJsonDumpsVal : PyVal → String
  | .pynull => "null"
  | .bool b => if b then "true" else "false"
  | .int n => toString n
  | .float q => ratDecimalStr q
  | .str s => jsonQuote s
  | .bytes bs => jsonQuote (pyStr (.bytes bs))
  | .pydate d => jsonQuote d.strForm
  | .decimal q => jsonQuote (pyStr (.decimal q))
  | .list l => "[" ++ joinComma (pyJsonDumpsList l) ++ "]"
  | .dict d => "\x7b" ++ renderObjBody (pyJsonDumpsDict d) ++ "\x7d"
/-- Rendered list items. -/
def pyJsonDumpsList : PyList → List String
  | .nil => []
  | .cons hd tl => pyJsonDumpsVal hd :: pyJsonDumpsList tl
/-- Rendered dict entries (unsorted; sorting happens at the object node). -/
def pyJsonDumpsDict : PyDict → List (String × String)
  | .nil => []
  | .cons k v tl => (k, pyJsonDumpsVal v) :: pyJsonDumpsDict tl
end

mutual
/-- Model of `orjson.dumps(value, option=OPT_SORT_KEYS | OPT_NON_STR_KEYS)`:
natively supported values render to compact sorted-key JSON (datetimes as
ISO-8601), unsupported values (`bytes`, `Decimal`) raise `TypeError`,
modelled as `none`. -/
def orjsonVal : PyVal → Option String
  | .pynull => some "null"
  | .bool b => some (if b then "true" else "false")
  | .int n => some (toString n)
  | .float q => some (ratDecimalStr q)
  | .str s => some (jsonQuote s)
  | .bytes _ => none
  | .pydate d => some (jsonQuote d.isoformat)
  | .decimal _ => none
  | .list l =>
    match orjsonList l with
    | some items => some ("[" ++ joinComma items ++ "]")
    | none => none
  | .dict d =>
    match orjsonDict d with
    | some entries => some ("\x7b" ++ renderObjBody entries ++ "\x7d")
    | none => none
/-- Rendered list items, failing if any item fails. -/
def orjsonList : PyList → Option (List String)
  | .nil => some []
  | .cons hd tl =>
    match orjsonVal hd, orjsonList tl with
    | some x, some xs => some (x :: xs)
    | _, _ => none
/-- Rendered dict entries, failing if any value fails. -/
def orjsonDict : PyDict → Option (List (String × String))
  | .nil => some []
  | .cons k v tl =>
    match orjsonVal v, orjsonDict tl with
    | some x, some xs => some ((k, x) :: xs)
    | _, _ => none
end

/-! ### Normalisation for hashing (`normalize.normalize_for_hashing`) -/

/-- Model of `normalize_for_hashing._convert_value`: deep-clean the value,
then dates and strings go through `parse_datetime` (a failure is caught and
becomes the empty string); nested structures become canonical sorted-key
compact JSON text; everything else is stringified. -/
def convertValue (v : PyVal) : String :=
  let cleaned := deep_clean v
  match cleaned with
  | .pydate d =>
    match parse_datetime (.pydate d) with
    | some dt => dt.isoformat
    | none => ""
  | .str s =>
    match parse_datetime (.str s) with
    | some dt => dt.isoformat
    | none => ""
  | .dict d => pyJsonDumpsVal (.dict d)
  | .list l => pyJsonDumpsVal (.list l)
  | other => pyStr other

/-- Model of `normalize.normalize_for_hashing`: deep-clean the payload; a
dict maps each surviving non-`None` entry through `_convert_value`, any
other value becomes a single entry keyed by `field_name`. -/
def normalize_for_hashing (raw_data : PyVal) (field_name : String) :
    List (String × String) :=
  let cleaned := deep_clean raw_data
  match cleaned with
  | .dict d =>
    (d.toList.filter (fun kv => kv.2 ≠ .pynull)).map (fun kv => (kv.1, convertValue kv.2))
  | c => [(field_name, convertValue c)]

/-! ### Fingerprint service (`event_hashing.EventHashService`) -/

/-- A dict of string fields as a model value. -/
def strDict (l : List (String × String)) : PyVal :=
  .dict (PyDict.ofList (l.map (fun kv => (kv.1, PyVal.str kv.2))))

/-- The hash payload of `EventHashService.generate`:
`\x7b"event": event_name, "data": normalized\x7d` plus the optional salt and
timestamp components (`if salt:` is a truthiness test, so an empty salt is
skipped). -/
def hashPayload (event_name : String) (normalized : List (String × String))
    (salt : Option String) (use_timestamp : Bool) (now_iso : String) : PyVal :=
  .dict (PyDict.ofList
    ([("event", PyVal.str event_name),
      ("data", strDict normalized)] ++
     (match salt with
      | some s => if s ≠ "" then [("salt", PyVal.str s)] else []
      | none => []) ++
     (if use_timestamp then [("timestamp", PyVal.str now_iso)] else [])))

/-- Model of `EventHashService.generate`: normalize, assemble the payload,
serialise with sorted keys and hash with SHA3-256, rendering 64 lowercase
hex digits. Serialisation failure surfaces as `HashGenerationError`
(`Except.error`); `now_iso` stands for the wall clock read when
`use_timestamp` is set. -/
def EventHashService.generate (raw_data : PyVal) (event_name : String)
    (salt : Option String) (use_timestamp : Bool) (now_iso : String) :
    Except String String :=
  let normalized := normalize_for_hashing raw_data event_name
  match orjsonVal (hashPayload event_name normalized salt use_timestamp now_iso) with
  | some serialized => .ok (bytesToHex (sha3_256 (utf8Encode serialized)))
  | none => .error "Hash generation failed"

/-- Model of the compatibility wrapper `generate_event_hash` (no salt, no
timestamp). -/
def generate_event_hash (raw_data : PyVal) (event_name : String) : Except String String :=
  EventHashService.generate raw_data event_name none false ""

/-! ### Spec-modelled fingerprint entry points

`EventHashService.generate_unique_fingerprint` and
`JSONSerializer.serialize_for_hashing` are called by
`pydentic_models.preprocess_and_hash`, `repository.save_event` and
`routers/events.py`, but no revision in the tree defines them. They are
modelled here from the specification (§4.5: deep-clean, normalized field
set, canonical payload, deterministic sorted-key serialisation, SHA3-256
rendered as 64 lowercase hex digits). -/

/-- Modelled from the spec: `JSONSerializer.serialize_for_hashing`, missing
from the source (`utils/serializer.py` defines no such class); per §4.5
step 4 it serialises the payload deterministically — keys sorted
recursively, no insignificant whitespace, UTF-8 — with points in time in
canonical ISO-8601 form. -/
def JSONSerializer.serialize_for_hashing (raw_data : PyDict)
    (timestamps : List (String × PyDateTime)) : String :=
  pyJsonDumpsVal (.dict (PyDict.ofList
    [("raw_data", .dict raw_data),
     ("timestamps", .dict (PyDict.ofList
       (timestamps.map (fun kv => (kv.1, PyVal.str kv.2.isoformat)))))]))

/-- Modelled from the spec: the one-argument
`EventHashService.generate_unique_fingerprint(serialized)` used by
`preprocess_and_hash`, missing from the source; per §4.5 step 5 it computes
SHA3-256 over the serialised bytes and renders 64 lowercase hexadecimal
characters. -/
def generate_unique_fingerprint (serialized : String) : String :=
  bytesToHex (sha3_256 (utf8Encode serialized))

/-- Modelled from the spec: the two-argument
`EventHashService.generate_unique_fingerprint(raw_data, event_name)` used by
`repository.save_event`, missing from the source; per §4.5 it deep-cleans
and normalises the payload, assembles
`\x7b"event": <name>, "fields": <normalized>\x7d` and hashes its
deterministic serialisation. -/
def generate_unique_fingerprint2 (raw_data : PyVal) (event_name : String) : String :=
  let normalized := normalize_for_hashing raw_data event_name
  generate_unique_fingerprint
    (pyJsonDumpsVal (.dict (PyDict.ofList
      [("event", .str event_name), ("fields", strDict normalized)])))

/-! ### Inbound validation pipeline (`pydentic_models.EventBase`) -/

mutual
/-- Model of `EventBase.convert_bytes_recursive`: decode byte strings to
text everywhere, recursing through containers. -/
def convert_bytes_recursive : PyVal → PyVal
  | .bytes bs => .str (utf8Decode bs)
  | .dict d => .dict (convertBytesDict d)
  | .list l => .list (convertBytesList l)
  | v => v
/-- Dict part of `convert_bytes_recursive`. -/
def convertBytesDict : PyDict → PyDict
  | .nil => .nil
  | .cons k v tl => .cons k (convert_bytes_recursive v) (convertBytesDict tl)
/-- List part of `convert_bytes_recursive`. -/
def convertBytesList : PyList → PyList
  | .nil => .nil
  | .cons hd tl => .cons (convert_bytes_recursive hd) (convertBytesList tl)
end

/-- The candidate timestamp keys of `EventBase._pre_extract_timestamps`. -/
def timestamp_fields : List String :=
  ["ts", "dt_add", "event_receive_dt_str", "timestamp", "event_time", "created_at",
   "event_receive_timestamp", "time"]

/-- Model of `EventBase._pre_extract_timestamps`: for every candidate field
whose value is present and truthy (the `:=` walrus test), parse it; parse
failures are logged and skipped. -/
def pre_extract_timestamps (data : PyDict) : List (String × PyDateTime) :=
  timestamp_fields.filterMap (fun field =>
    match data.get field with
    | some v =>
      if pyTruthy v then (parse_datetime v).map (fun d => (field, d)) else none
    | none => none)

/-- The ordered rule list of `EventBase._detect_event_type`. -/
def type_mapping : List (String × List String) :=
  [("purchase", ["order_id", "amount"]),
   ("pageview", ["url", "page_view"]),
   ("login", ["username", "password"])]

/-- Model of `EventBase._detect_event_type`: first rule all of whose fields
are present wins; no rule matching yields `None`. -/
def detect_event_type (data : PyDict) : Option String :=
  (type_mapping.find? (fun tm => tm.2.all (fun field => data.hasKey field))).map
    (fun tm => tm.1)

/-- The fields assembled by `EventBase.preprocess_and_hash`. -/
structure PreprocessResult where
  raw_data : PyDict
  timestamps : List (String × PyDateTime)
  event_hash : String
  event_type : Option String
  deriving DecidableEq

/-- Model of the `EventBase.preprocess_and_hash` validator on a dict payload
(a non-dict raises, which the model excludes by typing): keep the raw data,
deep-clean and convert bytes, extract timestamps, serialise
`\x7b"raw_data": ..., "timestamps": ...\x7d` and fingerprint it, and detect
the event type on the cleaned data. -/
def EventBase.preprocess_and_hash (data : PyDict) : PreprocessResult :=
  let raw_data := data
  let cleaned := convertBytesDict (processDict data)
  let timestamps := pre_extract_timestamps cleaned
  let serialized := JSONSerializer.serialize_for_hashing raw_data timestamps
  let event_hash := generate_unique_fingerprint serialized
  { raw_data := raw_data
    timestamps := timestamps
    event_hash := event_hash
    event_type := detect_event_type cleaned }

/-! ### Deduplication service (`services/deduplicator.py`) and repository
(`services/repository.py`)

The cache is an explicit state: a list of live keys with their time-to-live
as set at creation. `redisSetNxEx` is modelled from the documented Redis
`SET key value NX EX ttl` semantics used through `redis-py`; the stored
value (the constant `1`) is a marker and is not modelled. Cache
communication failures are outside the state model, so the
`DeduplicationError` wrapping of them does not arise. -/

/-- The cache state: keys currently set, with the TTL given at creation. -/
structure RedisState where
  entries : List (String × Nat)
  deriving DecidableEq

/-- TTL recorded for a key, if present. -/
def RedisState.lookup (st : RedisState) (k : String) : Option Nat :=
  (st.entries.find? (fun e => e.1 = k)).map (fun e => e.2)

/-- Model of Redis `SET key value NX EX ttl`: set only if absent, with the
given expiry; returns whether the key was newly created (redis-py returns
`True` or a falsy `None`, modelled as `Bool`). -/
def redisSetNxEx (k : String) (ttl : Nat) (st : RedisState) : Bool × RedisState :=
  if (st.lookup k).isSome then (false, st)
  else (true, ⟨(k, ttl) :: st.entries⟩)

/-- Model of Redis `DEL key`. -/
def RedisState.delete (st : RedisState) (k : String) : RedisState :=
  ⟨st.entries.filter (fun e => e.1 ≠ k)⟩

/-- Model of `Deduplicator.check_and_lock`: atomic set-if-absent with the
7-day TTL, true exactly when the event was not yet locked. -/
def Deduplicator.check_and_lock (event_hash : String) (st : RedisState) :
    Bool × RedisState :=
  redisSetNxEx event_hash 604800 st

/-- Model of `Deduplicator.safe_save`: lock, then run the persistence
callback; any callback failure deletes the lock and re-raises as
`DeduplicationError`. The callback transforms a database state and may
return a value, which `safe_save` discards (its body has no `return`). -/
def Deduplicator.safe_save {σ α : Type} (event_hash : String)
    (save_callback : σ → σ × Except String α) (redis : RedisState) (db : σ) :
    RedisState × σ × Except String Unit :=
  match Deduplicator.check_and_lock event_hash redis with
  | (true, r1) =>
    match save_callback db with
    | (db1, .ok _) => (r1, db1, .ok ())
    | (db1, .error e) =>
      (r1.delete event_hash, db1, .error ("Rollback due to error: " ++ e))
  | (false, r1) => (r1, db, .ok ())

/-- A persisted row (`EventIncomingORM`): the unique hash plus the data. -/
structure EventRow where
  event_hash : String
  data : PyDict
  deriving DecidableEq

/-- The repository's mutable state: cache, store and the per-instance
`unique_counter`. -/
structure RepoState where
  redis : RedisState
  db : List EventRow
  unique_counter : Nat
  deriving DecidableEq

/-- Model of `EventRepository.save_event`: fingerprint the payload (with
`event_data.get("event_name", "default_event")` as the event name — a
non-string name is stringified for the spec-modelled fingerprint), then
`safe_save` with a callback that inserts and commits the row. `safe_save`
returns `None`, so the returned "event" is always `none`, and the indicator
is `"saved"` whether or not anything was inserted; on an error the session
is rolled back and the error re-raised. -/
def EventRepository.save_event (event_data : PyDict) (st : RepoState) :
    RepoState × Except String (Option EventRow × String) :=
  let event_name : String :=
    match event_data.get "event_name" with
    | some (.str s) => s
    | some v => pyStr v
    | none => "default_event"
  let event_hash := generate_unique_fingerprint2 (.dict event_data) event_name
  let save_to_db := fun (d : List EventRow) =>
    (d ++ [⟨event_hash, event_data⟩], Except.ok (⟨event_hash, event_data⟩ : EventRow))
  match Deduplicator.safe_save event_hash save_to_db st.redis st.db with
  | (r1, db1, .ok ()) =>
    ({ redis := r1, db := db1, unique_counter := st.unique_counter + 1 },
     .ok (none, "saved"))
  | (r1, _, .error e) =>
    ({ redis := r1, db := st.db, unique_counter := st.unique_counter }, .error e)

/-! ### Order properties of the key comparison -/

theorem charListLe_total : ∀ a b : List Char, charListLe a b = true ∨ charListLe b a = true := by
  intro a
  induction a with
  | nil => intro b; left; rfl
  | cons c cs ih =>
    intro b
    cases b with
    | nil => right; rfl
    | cons d ds =>
      by_cases hlt : c.toNat < d.toNat
      · left; simp [charListLe, hlt]
      · by_cases heq : c.toNat = d.toNat
        · rcases ih ds with h | h
          · left; simp [charListLe, hlt, heq, h]
          · right
            simp [charListLe, show ¬ d.toNat < c.toNat from by omega,
              show d.toNat = c.toNat from heq.symm, h]
        · right; simp [charListLe, show d.toNat < c.toNat from by omega]

theorem charListLe_trans : ∀ a b c : List Char,
    charListLe a b = true → charListLe b c = true → charListLe a c = true := by
  intro a
  induction a with
  | nil => intro b c _ _; rfl
  | cons x xs ih =>
    intro b c hab hbc
    cases b with
    | nil => exact absurd hab (by simp [charListLe])
    | cons y ys =>
      cases c with
      | nil => exact absurd hbc (by simp [charListLe])
      | cons z zs =>
        by_cases hxy : x.toNat < y.toNat
        · by_cases hyz : y.toNat < z.toNat
          · simp [charListLe, show x.toNat < z.toNat from by omega]
          · by_cases hyz2 : y.toNat = z.toNat
            · simp [charListLe, show x.toNat < z.toNat from by omega]
            · exact absurd hbc (by simp [charListLe, hyz, hyz2])
        · by_cases hxy2 : x.toNat = y.toNat
          · have hab2 : charListLe xs ys = true := by simpa [charListLe, hxy, hxy2] using hab
            by_cases hyz : y.toNat < z.toNat
            · simp [charListLe, show x.toNat < z.toNat from by omega]
            · by_cases hyz2 : y.toNat = z.toNat
              · have hbc2 : charListLe ys zs = true := by
                  simpa [charListLe, hyz, hyz2] using hbc
                simp [charListLe, show ¬ x.toNat < z.toNat from by omega,
                  show x.toNat = z.toNat from by omega, ih ys zs hab2 hbc2]
              · exact absurd hbc (by simp [charListLe, hyz, hyz2])
          · exact absurd hab (by simp [charListLe, hxy, hxy2])

theorem Char.toNat_inj {a b : Char} (h : a.toNat = b.toNat) : a = b :=
  Char.ext (UInt32.ext (by exact_mod_cast h))

theorem charListLe_antisymm : ∀ a b : List Char,
    charListLe a b = true → charListLe b a = true → a = b := by
  intro a
  induction a with
  | nil =>
    intro b _ hba
    cases b with
    | nil => rfl
    | cons d ds => exact absurd hba (by simp [charListLe])
  | cons c cs ih =>
    intro b hab hba
    cases b with
    | nil => exact absurd hab (by simp [charListLe])
    | cons d ds =>
      by_cases hlt : c.toNat < d.toNat
      · exact absurd hba (by
          simp [charListLe, show ¬ d.toNat < c.toNat from by omega,
            show ¬ d.toNat = c.toNat from by omega])
      · by_cases heq : c.toNat = d.toNat
        · have hab2 : charListLe cs ds = true := by simpa [charListLe, hlt, heq] using hab
          have hba2 : charListLe ds cs = true := by
            simpa [charListLe, show ¬ d.toNat < c.toNat from by omega,
              show d.toNat = c.toNat from heq.symm] using hba
          rw [Char.toNat_inj heq, ih ds hab2 hba2]
        · exact absurd hab (by simp [charListLe, hlt, heq])

theorem strLe_total (a b : String) : strLe a b = true ∨ strLe b a = true :=
  charListLe_total a.toList b.toList

theorem strLe_trans {a b c : String} (hab : strLe a b = true) (hbc : strLe b c = true) :
    strLe a c = true :=
  charListLe_trans a.toList b.toList c.toList hab hbc

theorem strLe_antisymm {a b : String} (hab : strLe a b = true) (hba : strLe b a = true) :
    a = b := by
  have h := charListLe_antisymm a.toList b.toList hab hba
  cases a; cases b
  simpa [String.toList] using congrArg String.mk h

/-! ### The sorted rendering is permutation-invariant on duplicate-free keys -/

theorem sortPairsByKey_perm_eq {l₁ l₂ : List (String × String)}
    (hp : l₁.Perm l₂) (hn : (l₁.map Prod.fst).Nodup) :
    sortPairsByKey l₁ = sortPairsByKey l₂ := by
  have hperm : (sortPairsByKey l₁).Perm (sortPairsByKey l₂) :=
    (List.perm_insertionSort _ l₁).trans (hp.trans (List.perm_insertionSort _ l₂).symm)
  haveI instTot : IsTotal (String × String) (fun a b => strLe a.1 b.1 = true) :=
    ⟨fun a b => strLe_total a.1 b.1⟩
  haveI instTrans : IsTrans (String × String) (fun a b => strLe a.1 b.1 = true) :=
    ⟨fun _ _ _ => strLe_trans⟩
  haveI instAnti : IsAntisymm (String × String)
      (fun a b => strLe a.1 b.1 = true ∧ a.1 ≠ b.1) :=
    ⟨fun a b hab hba => absurd (strLe_antisymm hab.1 hba.1) hab.2⟩
  have sortedNe : ∀ (l : List (String × String)), (l.map Prod.fst).Nodup →
      (sortPairsByKey l).Pairwise (fun a b => strLe a.1 b.1 = true ∧ a.1 ≠ b.1) := by
    intro l hl
    have hsorted : (sortPairsByKey l).Pairwise (fun a b => strLe a.1 b.1 = true) :=
      List.sorted_insertionSort _ l
    have hnodup : ((sortPairsByKey l).map Prod.fst).Nodup :=
      ((List.perm_insertionSort _ l).map Prod.fst).nodup_iff.mpr hl
    rw [List.Nodup, List.pairwise_map] at hnodup
    exact hsorted.and hnodup
  have hn₂ : (l₂.map Prod.fst).Nodup := ((hp.map Prod.fst).nodup_iff).mp hn
  exact List.eq_of_perm_of_sorted hperm (sortedNe l₁ hn) (sortedNe l₂ hn₂)

/-! ### Spec equations for the cleaning and serialisation pipeline -/

theorem processDict_toList : (d : PyDict) →
    (processDict d).toList =
      (d.toList.filter (fun kv => !badKey kv.1 && is_meaningful kv.2)).map
        (fun kv => (kv.1, processValue kv.2))
  | .nil => rfl
  | .cons k v tl => by
    by_cases hb : badKey k
    · simp [processDict, hb, PyDict.toList, processDict_toList tl]
    · by_cases hm : is_meaningful v
      · simp [processDict, hb, hm, PyDict.toList, processDict_toList tl]
      · simp [processDict, hb, hm, PyDict.toList, processDict_toList tl]

theorem deep_clean_dict (d : PyDict) : deep_clean (.dict d) = .dict (processDict d) := rfl

theorem normalize_for_hashing_dict (p : PyDict) (name : String) :
    normalize_for_hashing (.dict p) name =
      ((processDict p).toList.filter (fun kv => kv.2 ≠ PyVal.pynull)).map
        (fun kv => (kv.1, convertValue kv.2)) := rfl

theorem orjsonDict_strs (l : List (String × String)) :
    orjsonDict (PyDict.ofList (l.map (fun kv => (kv.1, PyVal.str kv.2)))) =
      some (l.map (fun kv => (kv.1, jsonQuote kv.2))) := by
  induction l with
  | nil => rfl
  | cons hd tl ih => cases hd; simp [PyDict.ofList, orjsonDict, orjsonVal, ih]

theorem orjsonVal_strDict (l : List (String × String)) :
    orjsonVal (strDict l) =
      some ("\x7b" ++ renderObjBody (l.map (fun kv => (kv.1, jsonQuote kv.2)))
        ++ "\x7d") := by
  simp [strDict, orjsonVal, orjsonDict_strs]

theorem orjsonVal_hashPayload (name : String) (nd : List (String × String)) :
    orjsonVal (hashPayload name nd none false "") =
      some ("\x7b" ++ renderObjBody
        [("event", jsonQuote name),
         ("data", "\x7b" ++ renderObjBody (nd.map (fun kv => (kv.1, jsonQuote kv.2)))
           ++ "\x7d")] ++ "\x7d") := by
  simp [hashPayload, PyDict.ofList, orjsonVal, orjsonDict, orjsonVal_strDict, strDict,
    orjsonDict_strs]

theorem generate_event_hash_eq (raw_data : PyVal) (event_name : String) :
    generate_event_hash raw_data event_name =
      .ok (bytesToHex (sha3_256 (utf8Encode
        ("\x7b" ++ renderObjBody
          [("event", jsonQuote event_name),
           ("data", "\x7b" ++ renderObjBody
             ((normalize_for_hashing raw_data event_name).map
               (fun kv => (kv.1, jsonQuote kv.2))) ++ "\x7d")] ++ "\x7d")))) := by
  have h := orjsonVal_hashPayload event_name (normalize_for_hashing raw_data event_name)
  unfold generate_event_hash EventHashService.generate
  simp only [h]

theorem mapFst_pairMap {α β : Type} (l : List (String × α)) (g : String × α → β) :
    ((l.map (fun kv => (kv.1, g kv))).map Prod.fst) = l.map Prod.fst := by
  induction l with
  | nil => rfl
  | cons hd tl ih => simp [ih]

theorem normalize_keys_sublist (p : PyDict) (name : String) :
    ((normalize_for_hashing (.dict p) name).map Prod.fst).Sublist
      (p.toList.map Prod.fst) := by
  rw [normalize_for_hashing_dict, processDict_toList]
  rw [mapFst_pairMap _ (fun kv => convertValue kv.2)]
  refine List.Sublist.trans ((List.filter_sublist _).map Prod.fst) ?_
  rw [mapFst_pairMap _ (fun kv => processValue kv.2)]
  exact (List.filter_sublist _).map Prod.fst

theorem normalize_perm {p₁ p₂ : PyDict} (name : String)
    (hperm : (p₁.toList.filter (fun kv => is_meaningful kv.2)).Perm
      (p₂.toList.filter (fun kv => is_meaningful kv.2))) :
    (normalize_for_hashing (.dict p₁) name).Perm (normalize_for_hashing (.dict p₂) name) := by
  rw [normalize_for_hashing_dict, normalize_for_hashing_dict,
    processDict_toList, processDict_toList]
  have hfilter : ∀ p : PyDict,
      p.toList.filter (fun kv => !badKey kv.1 && is_meaningful kv.2) =
        (p.toList.filter (fun kv => is_meaningful kv.2)).filter
          (fun kv => !badKey kv.1) := by
    intro p
    rw [List.filter_filter]
  rw [hfilter, hfilter]
  exact (((hperm.filter _).map _).filter _).map _

/-! ### Cache-state helper lemmas -/

theorem lookup_insert_self (st : RedisState) (h : String) (ttl : Nat) :
    (RedisState.mk ((h, ttl) :: st.entries)).lookup h = some ttl := by
  simp [RedisState.lookup, List.find?]

theorem lookup_insert_other (st : RedisState) (h k : String) (ttl : Nat) (hk : k ≠ h) :
    (RedisState.mk ((h, ttl) :: st.entries)).lookup k = st.lookup k := by
  simp [RedisState.lookup, List.find?, Ne.symm hk]

theorem find?_filter_ne (tl : List (String × Nat)) (h : String) :
    (tl.filter (fun e => e.1 ≠ h)).find? (fun e => e.1 = h) = none := by
  induction tl with
  | nil => rfl
  | cons e tl ih =>
    by_cases he : e.1 = h
    · simp [List.filter_cons, he, ih]
    · simp [List.filter_cons, he, List.find?, ih]

theorem lookup_delete_self (st : RedisState) (h : String) :
    (st.delete h).lookup h = none := by
  simp [RedisState.delete, RedisState.lookup, find?_filter_ne]

/-- C1: for every event hash and cache state, `check_and_lock` returns true
exactly when the key was absent; when absent it creates the key with a
604,800-second TTL and touches no other key, and when present it leaves the
cache state unchanged. -/
theorem C1_check_and_lock (h : String) (st : RedisState) :
    ((Deduplicator.check_and_lock h st).1 = true ↔ st.lookup h = none)
  ∧ (st.lookup h ≠ none → (Deduplicator.check_and_lock h st).2 = st)
  ∧ (st.lookup h = none →
      ((Deduplicator.check_and_lock h st).2).lookup h = some 604800
    ∧ ∀ k, k ≠ h → ((Deduplicator.check_and_lock h st).2).lookup k = st.lookup k) := by
  unfold Deduplicator.check_and_lock redisSetNxEx
  by_cases hmem : (st.lookup h).isSome
  · refine ⟨?_, fun _ => by simp [hmem], fun habs => ?_⟩
    · simp only [hmem, if_true]
      constructor
      · intro hfalse; cases hfalse
      · intro habs; rw [habs] at hmem; cases hmem
    · rw [habs] at hmem; cases hmem
  · have habs : st.lookup h = none := by
      cases hv : st.lookup h
      · rfl
      · rw [hv] at hmem; simp at hmem
    refine ⟨by simp [hmem, habs], fun hne => absurd habs hne, fun _ => ?_⟩
    simp only [hmem, Bool.false_eq_true, if_false]
    exact ⟨lookup_insert_self st h 604800, fun k hk => lookup_insert_other st h k 604800 hk⟩

/-- Closed witness for `C1_check_and_lock`, covering both the absent-key and
present-key branches at concrete inputs. -/
theorem C1_check_and_lock_witness :
    ((Deduplicator.check_and_lock "h1" ⟨[]⟩).2).lookup "h1" = some 604800
  ∧ (Deduplicator.check_and_lock "h1" ⟨[("h1", 604800)]⟩).2 = ⟨[("h1", 604800)]⟩ :=
  ⟨((C1_check_and_lock "h1" ⟨[]⟩).2.2 (by decide)).1,
   (C1_check_and_lock "h1" ⟨[("h1", 604800)]⟩).2.1 (by decide)⟩

/-- C3: if `safe_save` acquires the lock (the hash was absent) and the
persistence callback then fails, the cache key is deleted again and a
wrapped error is returned, so the hash is no longer locked and a retry can
acquire the lock afresh. -/
theorem C3_safe_save_rollback {σ α : Type} (h : String) (redis : RedisState) (db db1 : σ)
    (cb : σ → σ × Except String α) (e : String)
    (habs : redis.lookup h = none) (hcb : cb db = (db1, .error e)) :
    Deduplicator.safe_save h cb redis db =
      ((RedisState.mk ((h, 604800) :: redis.entries)).delete h, db1,
        .error ("Rollback due to error: " ++ e))
  ∧ ((Deduplicator.safe_save h cb redis db).1).lookup h = none
  ∧ (Deduplicator.check_and_lock h (Deduplicator.safe_save h cb redis db).1).1 = true := by
  have hrun : Deduplicator.safe_save h cb redis db =
      ((RedisState.mk ((h, 604800) :: redis.entries)).delete h, db1,
        .error ("Rollback due to error: " ++ e)) := by
    unfold Deduplicator.safe_save Deduplicator.check_and_lock redisSetNxEx
    simp [habs, hcb]
  have hnone : ((Deduplicator.safe_save h cb redis db).1).lookup h = none := by
    rw [hrun]
    exact lookup_delete_self _ h
  refine ⟨hrun, hnone, ?_⟩
  unfold Deduplicator.check_and_lock redisSetNxEx
  simp [hnone]

/-- Closed witness for `C3_safe_save_rollback` at a concrete failing
callback. -/
theorem C3_safe_save_rollback_witness :
    Deduplicator.safe_save "h1" (fun (n : Nat) => (n, Except.error (α := Unit) "boom")) ⟨[]⟩ 0 =
      ((RedisState.mk [("h1", 604800)]).delete "h1", 0,
        .error "Rollback due to error: boom")
  ∧ (Deduplicator.check_and_lock "h1"
      (Deduplicator.safe_save "h1" (fun (n : Nat) => (n, Except.error (α := Unit) "boom"))
        ⟨[]⟩ 0).1).1 = true := by
  have h := C3_safe_save_rollback "h1" ⟨[]⟩ 0 0
    (fun (n : Nat) => (n, Except.error (α := Unit) "boom")) "boom" (by decide) rfl
  exact ⟨h.1, h.2.2⟩

/-- C7 (counterexample): `_detect_event_type` has no `action_<value>` rule
and no `"default_event"` fallback — an input with only an `action` field
yields no type at all, and so does the empty input. -/
theorem C7_detect_counterexample :
    detect_event_type (.cons "action" (.str "click") .nil) = none
  ∧ detect_event_type (.cons "action" (.str "click") .nil) ≠ some "action_click"
  ∧ detect_event_type .nil = none
  ∧ detect_event_type .nil ≠ some "default_event" := by
  refine ⟨by decide, by decide, by decide, by decide⟩

/-- C7 (amended): the detector evaluates the ordered rules
purchase/pageview/login with first-match-wins and otherwise returns no type
(`None`) — there is no `action_<value>` rule and no `"default_event"`
default. -/
theorem C7_detect_event_type (data : PyDict) :
    detect_event_type data =
      (if data.hasKey "order_id" ∧ data.hasKey "amount" then some "purchase"
       else if data.hasKey "url" ∧ data.hasKey "page_view" then some "pageview"
       else if data.hasKey "username" ∧ data.hasKey "password" then some "login"
       else none) := by
  simp only [detect_event_type, type_mapping, List.find?, List.all]
  by_cases h1 : data.hasKey "order_id" <;> by_cases h2 : data.hasKey "amount" <;>
    by_cases h3 : data.hasKey "url" <;> by_cases h4 : data.hasKey "page_view" <;>
    by_cases h5 : data.hasKey "username" <;> by_cases h6 : data.hasKey "password" <;>
    simp [h1, h2, h3, h4, h5, h6]

/-- C8 (counterexample): deep-cleaning
`\x7b"a": "", "b": [], "c": null, "d": "ok"\x7d` does not give
`\x7b"d": "ok"\x7d` — the empty list under `"b"` survives, because
`_is_meaningful` only rejects `None` and blank strings/bytes. -/
theorem C8_deep_clean_counterexample :
    deep_clean (.dict (.cons "a" (.str "") (.cons "b" (.list .nil)
        (.cons "c" .pynull (.cons "d" (.str "ok") .nil))))) ≠
      .dict (.cons "d" (.str "ok") .nil) := by
  decide

/-- C8 (amended): deep-clean drops entries whose value is `None` or a blank
string but keeps empty collections; the example input cleans to
`\x7b"b": [], "d": "ok"\x7d`. -/
theorem C8_deep_clean :
    deep_clean (.dict (.cons "a" (.str "") (.cons "b" (.list .nil)
        (.cons "c" .pynull (.cons "d" (.str "ok") .nil))))) =
      .dict (.cons "b" (.list .nil) (.cons "d" (.str "ok") .nil))
  ∧ (∀ (k : String) (d : PyDict), processDict (.cons k .pynull d) = processDict d)
  ∧ (∀ (k : String) (d : PyDict), processDict (.cons k (.str "") d) = processDict d)
  ∧ (∀ (k : String) (d : PyDict), processDict (.cons k (.list .nil) d) =
      if badKey k then processDict d else .cons k (.list .nil) (processDict d)) := by
  refine ⟨by decide, ?_, ?_, ?_⟩
  · intro k d; simp [processDict, is_meaningful]
  · intro k d; simp [processDict, is_meaningful, pyStrip]
  · intro k d
    by_cases hb : badKey k
    · simp [processDict, hb]
    · simp [processDict, hb, is_meaningful, processValue, processList]

/-- C9 (counterexample): the bounded three-attempt JSON-repair routine
`fix_invalid_json` does not repair `\x7b'a': 1, 'b': 'x',\x7d` — its fourth
fix mangles the value of `"b"` into `" "x""`, every later attempt leaves the
text unchanged, and the routine returns its failure sentinel rather than a
parsed structure. -/
theorem C9_fix_invalid_json_counterexample :
    fix_invalid_json "\x7b'a': 1, 'b': 'x',\x7d" = none
  ∧ applyFixes "\x7b'a': 1, 'b': 'x',\x7d" =
      "\x7b\"a\":\"1\", \"b\":\" \"x\"\"\x7d" := by
  refine ⟨by decide, by decide⟩

/-- C9 (amended): the malformed text is not valid JSON as given; the repair
embedded in `deep_clean` (`_fix_json_string` followed by `json.loads`)
repairs and parses it to `\x7b"a": 1, "b": "x"\x7d` with `"a"` mapped to
the integer 1 — while the standalone `fix_invalid_json` routine gives up on
it and returns the failure sentinel. -/
theorem C9_json_repair :
    json_loads "\x7b'a': 1, 'b': 'x',\x7d" = none
  ∧ json_loads (fix_json_string "\x7b'a': 1, 'b': 'x',\x7d") =
      some (.dict (.cons "a" (.int 1) (.cons "b" (.str "x") .nil)))
  ∧ deep_clean (.str "\x7b'a': 1, 'b': 'x',\x7d") =
      .dict (.cons "a" (.int 1) (.cons "b" (.str "x") .nil)) := by
  refine ⟨by decide, by decide, by decide⟩

/-- C10: `_process_value` replaces every int or float map value on which
`datetime.fromtimestamp` succeeds — booleans included, since Python booleans
are ints — by the point in time that many seconds after the epoch, instead
of keeping the number; in particular `deep_clean(\x7b"count": 5\x7d)` maps
`"count"` to the datetime five seconds after the epoch. -/
theorem C10_numbers_become_datetimes (n : Int) (q : Rat) (b : Bool)
    (d d' : PyDateTime) :
    (fromtimestamp n = some d →
      processValue (.int n) = .pydate d ∧ d.micros = n * 1000000 ∧ d.tzmin = none)
  ∧ (fromtimestampRat q = some d' → processValue (.float q) = .pydate d')
  ∧ processValue (.bool b) = .pydate ⟨(if b then 1 else 0) * 1000000, none⟩
  ∧ deep_clean (.dict (.cons "count" (.int 5) .nil)) =
      .dict (.cons "count" (.pydate ⟨5000000, none⟩) .nil) := by
  refine ⟨fun h => ?_, fun h => ?_, ?_, by decide⟩
  · have hd : d = ⟨n * 1000000, none⟩ := by
      unfold fromtimestamp at h
      by_cases hr : minTimestamp ≤ n ∧ n ≤ maxTimestamp
      · simp [hr] at h; exact h.symm
      · simp [hr] at h
    subst hd
    exact ⟨by simp [processValue, h], rfl, rfl⟩
  · simp [processValue, h]
  · cases b <;> simp [processValue, fromtimestamp, minTimestamp, maxTimestamp]

/-- Closed witness for `C10_numbers_become_datetimes` at `n = 5`,
`q = 3/2` and `b = true`. -/
theorem C10_numbers_become_datetimes_witness :
    processValue (.int 5) = .pydate ⟨5000000, none⟩
  ∧ processValue (.float (mkRat 3 2)) = .pydate ⟨1500000, none⟩ := by
  have h := C10_numbers_become_datetimes 5 (mkRat 3 2) true ⟨5000000, none⟩ ⟨1500000, none⟩
  exact ⟨(h.1 (by decide)).1, h.2.1 (by decide)⟩

/-- C4: hash generation always succeeds on the model and the generated
`event_hash` is the SHA3-256 digest — rendered as exactly 64 lowercase
hexadecimal characters — of the deterministic sorted-key UTF-8
serialisation of the payload object combining the event name with the
normalized field set. -/
theorem C4_hash_shape (raw_data : PyVal) (event_name : String) :
    ∃ h, generate_event_hash raw_data event_name = .ok h
  ∧ h = bytesToHex (sha3_256 (utf8Encode
      ("\x7b" ++ renderObjBody
        [("event", jsonQuote event_name),
         ("data", "\x7b" ++ renderObjBody
           ((normalize_for_hashing raw_data event_name).map
             (fun kv => (kv.1, jsonQuote kv.2))) ++ "\x7d")] ++ "\x7d")))
  ∧ h.length = 64
  ∧ ∀ c ∈ h.toList, isLowerHexChar c := by
  refine ⟨_, generate_event_hash_eq raw_data event_name, rfl, ?_, ?_⟩
  · rw [bytesToHex_length, sha3_256_length]
  · exact bytesToHex_chars _ (sha3_256_bytes_lt _)

set_option maxRecDepth 16384 in
/-- C5 (counterexample): two payloads that differ only in the presence of an
empty-collection field hash differently — `\x7b"a": []\x7d` and `\x7b\x7d`
produce distinct fingerprints, because `deep_clean` keeps empty collections
and the empty list contributes a `"a": "[]"` field to the normalized set. -/
theorem C5_empty_collection_changes_hash :
    generate_event_hash (.dict (.cons "a" (.list .nil) .nil)) "e" ≠
      generate_event_hash (.dict .nil) "e" := by
  decide

/-- C5 (amended): for any two payload dicts with duplicate-free keys whose
meaningful entries (everything but `None`-valued and blank-string/bytes
fields) agree up to order, the fingerprint service generates an identical
`event_hash` for the same event name; empty-collection fields, by contrast,
are meaningful and do change the hash. -/
theorem C5_hash_determinism (name : String) (p₁ p₂ : PyDict)
    (h₁ : (p₁.toList.map Prod.fst).Nodup)
    (hperm : (p₁.toList.filter (fun kv => is_meaningful kv.2)).Perm
      (p₂.toList.filter (fun kv => is_meaningful kv.2))) :
    generate_event_hash (.dict p₁) name = generate_event_hash (.dict p₂) name := by
  have hnd := normalize_perm name hperm
  have hkeys : ((normalize_for_hashing (.dict p₁) name).map Prod.fst).Nodup :=
    (normalize_keys_sublist p₁ name).nodup h₁
  have hq : ((normalize_for_hashing (.dict p₁) name).map
        (fun kv => (kv.1, jsonQuote kv.2))).Perm
      ((normalize_for_hashing (.dict p₂) name).map
        (fun kv => (kv.1, jsonQuote kv.2))) :=
    hnd.map _
  have hqkeys : (((normalize_for_hashing (.dict p₁) name).map
      (fun kv => (kv.1, jsonQuote kv.2))).map Prod.fst).Nodup := by
    rw [mapFst_pairMap _ (fun kv => jsonQuote kv.2)]
    exact hkeys
  have hsort := sortPairsByKey_perm_eq hq hqkeys
  rw [generate_event_hash_eq, generate_event_hash_eq]
  have hrender : renderObjBody ((normalize_for_hashing (.dict p₁) name).map
        (fun kv => (kv.1, jsonQuote kv.2))) =
      renderObjBody ((normalize_for_hashing (.dict p₂) name).map
        (fun kv => (kv.1, jsonQuote kv.2))) := by
    unfold renderObjBody
    rw [hsort]
  rw [hrender]

set_option maxRecDepth 16384 in
/-- Closed witness for `C5_hash_determinism`: dropping a blank-string field
and adding a `None` field while reordering keys leaves the hash unchanged. -/
theorem C5_hash_determinism_witness :
    ((PyDict.cons "b" (.str " ") (.cons "a" (.str "ok") .nil)).toList.filter
        (fun kv => is_meaningful kv.2)).Perm
      ((PyDict.cons "a" (.str "ok") (.cons "c" .pynull .nil)).toList.filter
        (fun kv => is_meaningful kv.2))
  ∧ generate_event_hash (.dict (.cons "b" (.str " ") (.cons "a" (.str "ok") .nil))) "login" =
      generate_event_hash (.dict (.cons "a" (.str "ok") (.cons "c" .pynull .nil))) "login" :=
  ⟨by decide,
   C5_hash_determinism "login" _ _ (by decide) (by decide)⟩

set_option maxRecDepth 16384 in
/-- C2 (counterexample): when the fingerprint is already locked (a
duplicate), `save_event` neither raises nor returns a `"duplicate"`
indicator — it returns `(None, "saved")`, inserting nothing; the persisted
row is never returned because `safe_save` discards the callback result. -/
theorem C2_save_event_counterexample :
    (EventRepository.save_event .nil
        ⟨⟨[(generate_unique_fingerprint2 (.dict .nil) "default_event", 604800)]⟩, [], 0⟩).2 =
      .ok (none, "saved")
  ∧ (EventRepository.save_event .nil
        ⟨⟨[(generate_unique_fingerprint2 (.dict .nil) "default_event", 604800)]⟩, [], 0⟩).1.db = []
  ∧ (EventRepository.save_event .nil
        ⟨⟨[(generate_unique_fingerprint2 (.dict .nil) "default_event", 604800)]⟩, [], 0⟩).2 ≠
      .ok (none, "duplicate") := by
  refine ⟨by decide, by decide, by decide⟩

/-- C2 (amended): `save_event` computes the fingerprint and delegates to
`safe_save`, which inserts the row only when the hash was absent; in both
the new and the duplicate case it returns `(None, "saved")` without raising
— the persisted row is not propagated and no `"duplicate"` indicator
exists. -/
theorem C2_save_event (event_data : PyDict) (st : RepoState) :
    (let event_name : String :=
      match event_data.get "event_name" with
      | some (.str s) => s
      | some v => pyStr v
      | none => "default_event"
    let h := generate_unique_fingerprint2 (.dict event_data) event_name
    (st.redis.lookup h = none →
      EventRepository.save_event event_data st =
        ({ redis := ⟨(h, 604800) :: st.redis.entries⟩,
           db := st.db ++ [⟨h, event_data⟩],
           unique_counter := st.unique_counter + 1 }, .ok (none, "saved")))
  ∧ (st.redis.lookup h ≠ none →
      EventRepository.save_event event_data st =
        ({ redis := st.redis, db := st.db, unique_counter := st.unique_counter + 1 },
         .ok (none, "saved")))) := by
  refine ⟨fun habs => ?_, fun hmem => ?_⟩
  · unfold EventRepository.save_event Deduplicator.safe_save Deduplicator.check_and_lock
      redisSetNxEx
    simp only [habs, Option.isSome_none, Bool.false_eq_true, if_false]
  · unfold EventRepository.save_event Deduplicator.safe_save Deduplicator.check_and_lock
      redisSetNxEx
    have hsome : ((st.redis.lookup (generate_unique_fingerprint2 (.dict event_data)
        (match event_data.get "event_name" with
         | some (.str s) => s
         | some v => pyStr v
         | none => "default_event"))).isSome) = true := by
      cases hv : st.redis.lookup (generate_unique_fingerprint2 (.dict event_data)
        (match event_data.get "event_name" with
         | some (.str s) => s
         | some v => pyStr v
         | none => "default_event"))
      · exact absurd hv hmem
      · rfl
    simp only [hsome, if_true]

set_option maxRecDepth 16384 in
/-- Closed witness for `C2_save_event`, exercising both the fresh-hash
branch (row inserted, `(None, "saved")`) and the duplicate branch (nothing
inserted, still `(None, "saved")`). -/
theorem C2_save_event_witness :
    EventRepository.save_event .nil ⟨⟨[]⟩, [], 0⟩ =
      ({ redis := ⟨[(generate_unique_fingerprint2 (.dict .nil) "default_event", 604800)]⟩,
         db := [⟨generate_unique_fingerprint2 (.dict .nil) "default_event", .nil⟩],
         unique_counter := 1 }, .ok (none, "saved"))
  ∧ EventRepository.save_event .nil
      ⟨⟨[(generate_unique_fingerprint2 (.dict .nil) "default_event", 604800)]⟩, [], 0⟩ =
      ({ redis := ⟨[(generate_unique_fingerprint2 (.dict .nil) "default_event", 604800)]⟩,
         db := [], unique_counter := 1 }, .ok (none, "saved")) :=
  ⟨(C2_save_event .nil ⟨⟨[]⟩, [], 0⟩).1 (by decide),
   (C2_save_event .nil
     ⟨⟨[(generate_unique_fingerprint2 (.dict .nil) "default_event", 604800)]⟩, [], 0⟩).2
     (by decide)⟩

set_option maxRecDepth 16384 in
/-- C6 (counterexample): a client-supplied `event_hash` matching the
64-hex-character pattern is not accepted as-is — `preprocess_and_hash`
always regenerates the hash, so the constructed event's `event_hash`
differs from the supplied all-zero hash. -/
theorem C6_supplied_hash_not_kept :
    ("0000000000000000000000000000000000000000000000000000000000000000".length = 64
      ∧ ∀ c ∈ ("0000000000000000000000000000000000000000000000000000000000000000").toList,
          isLowerHexChar c)
  ∧ (EventBase.preprocess_and_hash
      (.cons "event_hash"
        (.str "0000000000000000000000000000000000000000000000000000000000000000")
        (.cons "user" (.str "bob") .nil))).event_hash ≠
      "0000000000000000000000000000000000000000000000000000000000000000" := by
  refine ⟨⟨by decide, by decide⟩, by decide⟩

/-- C6 (amended): the validation pipeline always regenerates the hash — the
constructed event's `event_hash` is the fingerprint of the serialised
`\x7b"raw_data", "timestamps"\x7d` payload (64 lowercase hex characters),
regardless of any client-supplied `event_hash` value. -/
theorem C6_hash_always_regenerated (data : PyDict) :
    (EventBase.preprocess_and_hash data).event_hash =
      generate_unique_fingerprint (JSONSerializer.serialize_for_hashing data
        (pre_extract_timestamps (convertBytesDict (processDict data))))
  ∧ ((EventBase.preprocess_and_hash data).event_hash).length = 64
  ∧ ∀ c ∈ ((EventBase.preprocess_and_hash data).event_hash).toList, isLowerHexChar c := by
  refine ⟨rfl, ?_, ?_⟩
  · show (generate_unique_fingerprint _).length = 64
    unfold generate_unique_fingerprint
    rw [bytesToHex_length, sha3_256_length]
  · show ∀ c ∈ (generate_unique_fingerprint _).toList, isLowerHexChar c
    unfold generate_unique_fingerprint
    exact bytesToHex_chars _ (sha3_256_bytes_lt _)

set_option maxRecDepth 16384 in
/-- Closed witness for `C4_hash_shape` at a concrete payload. -/
theorem C4_hash_shape_witness :
    ∃ h, generate_event_hash (.dict .nil) "e" = .ok h ∧ h.length = 64 :=
  (C4_hash_shape (.dict .nil) "e").elim (fun h hh => ⟨h, hh.1, hh.2.2.1⟩)

set_option maxRecDepth 16384 in
/-- Closed witness for `C6_hash_always_regenerated` at a concrete payload. -/
theorem C6_hash_always_regenerated_witness :
    ((EventBase.preprocess_and_hash PyDict.nil).event_hash).length = 64 :=
  (C6_hash_always_regenerated .nil).2.1

/-- Closed witness for `C7_detect_event_type` at a purchase-shaped input. -/
theorem C7_detect_event_type_witness :
    detect_event_type (.cons "order_id" (.int 1) (.cons "amount" (.int 2) .nil)) =
      some "purchase" := by
  rw [C7_detect_event_type]
  decide

/-- Closed witness instantiating the universally quantified parts of
`C8_deep_clean`. -/
theorem C8_deep_clean_witness :
    processDict (.cons "x" .pynull .nil) = processDict .nil
  ∧ processDict (.cons "x" (.str "") .nil) = processDict .nil :=
  ⟨C8_deep_clean.2.1 "x" .nil, C8_deep_clean.2.2.1 "x" .nil⟩
